import Mathlib

/-!
# Log-gamma (Lanczos, g = 7, kmax = 8) and the densities built on it

A shallow embedding of `TMB/inst/include/lgamma.hpp`.  The C++ functions are
templates over a scalar `Type`; here they are functions over any type `α`
carrying the operations the templates use (arithmetic, a constructor from
decimal literals, a constructor from `int`, `log`, `exp`).  The theorems are
stated over the real numbers: a decimal literal denotes that exact decimal number,
arithmetic is exact (floating-point rounding is not modelled), `log` and `exp` are the
natural logarithm and the exponential, and the header constant `M_E` is the number e.
Where the rounding of the shifted argument `y - 1.0` decides a statement, the scalar is
`Binary64`, rationals with every operation rounded onto the double-precision grid.
-/

namespace TMB

/-- The operations the templates need beyond arithmetic: `log`, `exp`, and the
constant `M_E` of the C math header. -/
class LogExp (α : Type) where
  /-- Natural logarithm of the scalar type. -/
  log : α → α
  /-- Exponential of the scalar type. -/
  exp : α → α
  /-- The header constant `M_E`. -/
  M_E : α

section Generic

variable {α : Type} [Add α] [Sub α] [Mul α] [Div α] [Neg α] [OfScientific α] [IntCast α]
  [LogExp α]

/-- `LogRootTwoPi_` of `lgamma`. -/
def LogRootTwoPi_ : α := 0.9189385332046727418

/-- The table `lanczos_7_c[9]` of `lgamma`: coefficients for gamma=7, kmax=8. -/
def lanczos_7_c : Fin 9 → α :=
  ![0.99999999999980993227684700473478,
    676.520368121885098567009190444019,
    -1259.13921672240287047156078755283,
    771.3234287776530788486528258894,
    -176.61502916214059906584551354,
    12.507343278686904814458936853,
    -0.13857109526572011689554707,
    9.984369578019570859563e-6,
    1.50563273514931155834e-7]

/-- The loop `for(k=1; k<=8; k++) { Ag += lanczos_7_c[k]/(x+k); }` of `lgamma`,
entered with the current `k` and `Ag`; it returns `Ag` at loop exit. -/
def lanczosLoop (x : α) (k : Nat) (Ag : α) : α :=
  if h : k ≤ 8 then
    lanczosLoop x (k + 1) (Ag + lanczos_7_c ⟨k, by omega⟩ / (x + ((k : Int) : α)))
  else Ag
termination_by 9 - k

/-- The denominators `x+k` by which the loop
`for(k=1; k<=8; k++) { Ag += lanczos_7_c[k]/(x+k); }` of `lgamma` divides, in the order of
its iterations; the control flow is that of `lanczosLoop`. -/
def lanczosDenoms (x : α) (k : Nat) (ds : List α) : List α :=
  if k ≤ 8 then lanczosDenoms x (k + 1) (ds ++ [x + ((k : Int) : α)]) else ds
termination_by 9 - k

/-- The function `lgamma(y)`. -/
def lgamma (y : α) : α :=
  let x : α := y - 1.0
  let Ag : α := lanczosLoop x 1 (lanczos_7_c 0)
  let term1 : α := (x + 0.5) * LogExp.log ((x + 7.5) / LogExp.M_E)
  let term2 : α := LogRootTwoPi_ + LogExp.log Ag
  term1 + (term2 - 7.0)

/-- The function `dnbinom(x, size, prob, give_log)`. -/
def dnbinom (x size prob : α) (give_log : Int) : α :=
  let n := size
  let p := prob
  let logres := lgamma (x + n) - lgamma n - lgamma (x + ((1 : Int) : α))
    + n * LogExp.log p + x * LogExp.log (((1 : Int) : α) - p)
  if give_log ≠ 0 then logres else LogExp.exp logres

/-- The function `dnbinom2(x, mu, var, give_log)`. -/
def dnbinom2 (x mu var : α) (give_log : Int) : α :=
  let p := mu / var
  let n := mu * p / (((1 : Int) : α) - p)
  dnbinom x n p give_log

/-- The function `dpois(x, lambda, give_log)`. -/
def dpois (x lambda : α) (give_log : Int) : α :=
  let logres := -lambda + x * LogExp.log lambda - lgamma (x + ((1 : Int) : α))
  if give_log ≠ 0 then logres else LogExp.exp logres

/-- The function `dgamma(y, shape, scale, give_log)`. -/
def dgamma (y shape scale : α) (give_log : Int) : α :=
  let logres := -lgamma shape + (shape - 1.0) * LogExp.log y - y / scale
    - shape * LogExp.log scale
  if give_log ≠ 0 then logres else LogExp.exp logres

/-- The function `dlgamma(y, shape, scale, give_log)`. -/
def dlgamma (y shape scale : α) (give_log : Int) : α :=
  let logres := -lgamma shape - shape * LogExp.log scale - LogExp.exp y / scale
    + shape * y
  if give_log ≠ 0 then logres else LogExp.exp logres

end Generic

/-- Modelled from the spec: the macro `M_E` comes from the C math header, which is
not part of this repository; the spec reads it as the number e.  Over the reals
`log` and `exp` are the natural logarithm and the exponential. -/
noncomputable instance instLogExpReal : LogExp ℝ where
  log := Real.log
  exp := Real.exp
  M_E := Real.exp 1

/-! ## Auxiliary polynomials for the error analysis -/

/-- Auxiliary polynomial of the error analysis: `10^32` times the numerator of the Lanczos
sum `Ag` of `lgamma` over the common denominator `(x+1)(x+2)...(x+8)`. -/
def lanczosP (x : ℝ) : ℝ :=
  1061961009907599101227295872329746760960 + 1124692948465992167196728973367406438752 * x
    + 521086901776082713107537144706977431272 * x ^ 2
    + 137949626587866887258808020162248472352 * x ^ 3
    + 22823521549971407122420332492084715122 * x ^ 4
    + 2416551066502947252315811748351973108 * x ^ 5 + 159904253472204137546088809542183488 * x ^ 6
    + 6045833333334190167228761259104108 * x ^ 7 + 99999999999980993227684700473478 * x ^ 8

/-- Auxiliary: the derivative of `lanczosP`. -/
def lanczosP1 (x : ℝ) : ℝ :=
  1124692948465992167196728973367406438752 + 1042173803552165426215074289413954862544 * x
    + 413848879763600661776424060486745417056 * x ^ 2
    + 91294086199885628489681329968338860488 * x ^ 3
    + 12082755332514736261579058741759865540 * x ^ 4
    + 959425520833224825276532857253100928 * x ^ 5 + 42320833333339331170601328813728756 * x ^ 6
    + 799999999999847945821477603787824 * x ^ 7

/-- Auxiliary: the second derivative of `lanczosP`. -/
def lanczosP2 (x : ℝ) : ℝ :=
  1042173803552165426215074289413954862544 + 827697759527201323552848120973490834112 * x
    + 273882258599656885469043989905016581464 * x ^ 2
    + 48331021330058945046316234967039462160 * x ^ 3
    + 4797127604166124126382664286265504640 * x ^ 4 + 253925000000035987023607972882372536 * x ^ 5
    + 5599999999998935620750343226514768 * x ^ 6

/-! ## The scalar `double` for the shifted argument -/

/-- Rounding of a rational to the nearest integer, ties to the even one. -/
def roundHalfEven (m : ℚ) : ℤ :=
  if m - ⌊m⌋ < 1 / 2 then ⌊m⌋
  else if 1 / 2 < m - ⌊m⌋ then ⌊m⌋ + 1
  else if ⌊m⌋ % 2 = 0 then ⌊m⌋ else ⌊m⌋ + 1

/-- Rounding of a rational onto the binary64 grid: 53-bit significand, round to nearest,
ties to even.  The exponent is not bounded, so overflow and subnormal numbers are not
covered. -/
def roundBinary64 (q : ℚ) : ℚ :=
  if q = 0 then 0
  else (roundHalfEven (q / 2 ^ (Int.log 2 |q| - 52)) : ℚ) * 2 ^ (Int.log 2 |q| - 52)

/-- Modelled from the spec: the scalar type is a template parameter, and the spec names
double precision as the underlying scalar.  A value is a rational on the binary64 grid and
each operation returns its exact result rounded by `roundBinary64`.  Only the operations
behind the shifted argument `x = y - 1.0` and the denominators `x + k` of `lgamma` are
given. -/
structure Binary64 where
  /-- The number represented. -/
  val : ℚ

instance : Sub Binary64 := ⟨fun a b => ⟨roundBinary64 (a.val - b.val)⟩⟩

instance : Add Binary64 := ⟨fun a b => ⟨roundBinary64 (a.val + b.val)⟩⟩

instance : OfScientific Binary64 :=
  ⟨fun m s e => ⟨roundBinary64 (OfScientific.ofScientific m s e)⟩⟩

instance : IntCast Binary64 := ⟨fun n => ⟨roundBinary64 n⟩⟩

/-! ## Basic facts about the embedding over the reals -/

@[simp] theorem log_real (x : ℝ) : LogExp.log x = Real.log x := rfl

@[simp] theorem exp_real (x : ℝ) : LogExp.exp x = Real.exp x := rfl

@[simp] theorem M_E_real : (LogExp.M_E : ℝ) = Real.exp 1 := rfl

/-- The Lanczos sum `Ag` with the loop unrolled. -/
theorem lanczosLoop_unroll (x : ℝ) :
    lanczosLoop x 1 (lanczos_7_c 0) =
      lanczos_7_c 0 + lanczos_7_c 1 / (x + 1) + lanczos_7_c 2 / (x + 2)
        + lanczos_7_c 3 / (x + 3) + lanczos_7_c 4 / (x + 4) + lanczos_7_c 5 / (x + 5)
        + lanczos_7_c 6 / (x + 6) + lanczos_7_c 7 / (x + 7) + lanczos_7_c 8 / (x + 8) := by
  simp [lanczosLoop]

/-- The indices `1..8` of the table. -/
theorem Icc_one_eight : Finset.Icc (1 : Fin 9) 8 = {1, 2, 3, 4, 5, 6, 7, 8} := by
  decide

/-- The Lanczos sum `Ag` as a closed expression. -/
theorem lanczosLoop_real (x : ℝ) :
    lanczosLoop x 1 (lanczos_7_c 0) =
      lanczos_7_c 0 + ∑ k ∈ Finset.Icc (1 : Fin 9) 8, lanczos_7_c k / (x + ((k : ℕ) : ℝ)) := by
  rw [lanczosLoop_unroll, Icc_one_eight]
  have e3 : ((3 : Fin 9) : ℕ) = 3 := rfl
  have e4 : ((4 : Fin 9) : ℕ) = 4 := rfl
  have e5 : ((5 : Fin 9) : ℕ) = 5 := rfl
  have e6 : ((6 : Fin 9) : ℕ) = 6 := rfl
  have e7 : ((7 : Fin 9) : ℕ) = 7 := rfl
  have e8 : ((8 : Fin 9) : ℕ) = 8 := rfl
  simp [e3, e4, e5, e6, e7, e8]
  ring

/-- The Lanczos sum `Ag` with the table entries written out. -/
theorem lanczosLoop_values (x : ℝ) :
    lanczosLoop x 1 (lanczos_7_c 0) =
      0.99999999999980993227684700473478 + 676.520368121885098567009190444019 / (x + 1)
        + -1259.13921672240287047156078755283 / (x + 2)
        + 771.3234287776530788486528258894 / (x + 3)
        + -176.61502916214059906584551354 / (x + 4)
        + 12.507343278686904814458936853 / (x + 5)
        + -0.13857109526572011689554707 / (x + 6)
        + 9.984369578019570859563e-6 / (x + 7)
        + 1.50563273514931155834e-7 / (x + 8) := by
  rw [lanczosLoop_unroll]
  rfl

/-- Unfolding of `lgamma` over the reals. -/
theorem lgamma_unfold (y : ℝ) :
    lgamma y = (y - 1 + 0.5) * Real.log ((y - 1 + 7.5) / Real.exp 1)
      + (LogRootTwoPi_ + Real.log (lanczosLoop (y - 1) 1 (lanczos_7_c 0)) - 7) := by
  have h1 : (1.0 : ℝ) = 1 := by norm_num
  have h7 : (7.0 : ℝ) = 7 := by norm_num
  simp only [lgamma, log_real, M_E_real, h1, h7]

/-- Linear scale of `dnbinom`: the exponential of the log-probability. -/
theorem dnbinom_linear (x n p : ℝ) :
    dnbinom x n p 0 = Real.exp (lgamma (x + n) - lgamma n - lgamma (x + 1)
      + n * Real.log p + x * Real.log (1 - p)) := by
  simp [dnbinom]

/-- Linear scale of `dpois`: the exponential of the log-probability. -/
theorem dpois_linear (x lambda : ℝ) :
    dpois x lambda 0 = Real.exp (-lambda + x * Real.log lambda - lgamma (x + 1)) := by
  simp [dpois]

/-- A lower bound of the exponential from a Taylor polynomial. -/
theorem pow_le_exp_of_le_taylor {s a : ℝ} (n k : ℕ) (hs : 0 ≤ s) (ha0 : 0 ≤ a)
    (ha : a ≤ ∑ m ∈ Finset.range n, s ^ m / (m.factorial : ℝ)) :
    a ^ k ≤ Real.exp (k * s) := by
  rw [Real.exp_nat_mul]
  exact pow_le_pow_left₀ ha0 (ha.trans (Real.sum_le_exp_of_nonneg hs n)) k

/-- An upper bound of the exponential from a Taylor polynomial with remainder. -/
theorem exp_le_pow_of_taylor_le {s b : ℝ} (n k : ℕ) (hn : 0 < n) (hs : 0 ≤ s) (hs1 : s ≤ 1)
    (hb : ∑ m ∈ Finset.range n, s ^ m / (m.factorial : ℝ)
      + s ^ n * ((n : ℝ) + 1) / ((n.factorial : ℝ) * n) ≤ b) :
    Real.exp (k * s) ≤ b ^ k := by
  rw [Real.exp_nat_mul]
  exact pow_le_pow_left₀ (Real.exp_pos s).le ((Real.exp_bound' hs hs1 hn).trans hb) k

/-- With `x = y - 1` and `c = 2x + 1` a natural number, twice the distance of `lgamma y`
from `log m` is the logarithm of an explicit quantity minus a rational number. -/
theorem two_lgamma_sub_log (y m A : ℝ) (c : ℕ) (hc : 2 * (y - 1) + 1 = c) (hm : 0 < m)
    (hA : lanczosLoop (y - 1) 1 (lanczos_7_c 0) = A) (hApos : 0 < A) :
    2 * (lgamma y - Real.log m)
      = Real.log ((((c : ℝ) + 14) / 2) ^ c * A ^ 2 / m ^ 2)
        - ((c : ℝ) + 14 - 2 * LogRootTwoPi_) := by
  have h1 : (1.0 : ℝ) = 1 := by norm_num
  have h7 : (7.0 : ℝ) = 7 := by norm_num
  have e1 : y - 1 + 0.5 = (c : ℝ) / 2 := by rw [← hc]; norm_num; ring
  have e2 : y - 1 + 7.5 = ((c : ℝ) + 14) / 2 := by rw [← hc]; norm_num; ring
  have hpos : (0 : ℝ) < ((c : ℝ) + 14) / 2 := by positivity
  have hQ : Real.log ((((c : ℝ) + 14) / 2) ^ c * A ^ 2 / m ^ 2)
      = (c : ℝ) * Real.log (((c : ℝ) + 14) / 2) + 2 * Real.log A - 2 * Real.log m := by
    rw [Real.log_div (by positivity) (by positivity),
      Real.log_mul (by positivity) (by positivity), Real.log_pow, Real.log_pow, Real.log_pow]
    push_cast
    ring
  have hE : Real.log ((((c : ℝ) + 14) / 2) / Real.exp 1)
      = Real.log (((c : ℝ) + 14) / 2) - 1 := by
    rw [Real.log_div hpos.ne' (Real.exp_pos 1).ne', Real.log_exp]
  simp only [lgamma, log_real, M_E_real, h1, h7, hA, e1, e2]
  rw [hQ, hE]
  ring

/-- The distance of `lgamma y` from `log m` is at most `ε` once the explicit quantity lies
between two exponentials. -/
theorem abs_lgamma_sub_log_le (y m A ε : ℝ) (c : ℕ) (hc : 2 * (y - 1) + 1 = c) (hm : 0 < m)
    (hA : lanczosLoop (y - 1) 1 (lanczos_7_c 0) = A) (hApos : 0 < A)
    (hlo : Real.exp ((c : ℝ) + 14 - 2 * LogRootTwoPi_ - 2 * ε)
      ≤ (((c : ℝ) + 14) / 2) ^ c * A ^ 2 / m ^ 2)
    (hhi : (((c : ℝ) + 14) / 2) ^ c * A ^ 2 / m ^ 2
      ≤ Real.exp ((c : ℝ) + 14 - 2 * LogRootTwoPi_ + 2 * ε)) :
    |lgamma y - Real.log m| ≤ ε := by
  have h := two_lgamma_sub_log y m A c hc hm hA hApos
  have hQ : (0 : ℝ) < (((c : ℝ) + 14) / 2) ^ c * A ^ 2 / m ^ 2 := by positivity
  have h1 := (Real.le_log_iff_exp_le hQ).2 hlo
  have h2 := (Real.log_le_iff_le_exp hQ).2 hhi
  rw [abs_le]
  constructor <;> linarith

/-- The value `lgamma y` exceeds `log m` once the explicit quantity exceeds an
exponential. -/
theorem lgamma_sub_log_pos (y m A : ℝ) (c : ℕ) (hc : 2 * (y - 1) + 1 = c) (hm : 0 < m)
    (hA : lanczosLoop (y - 1) 1 (lanczos_7_c 0) = A) (hApos : 0 < A)
    (hlo : Real.exp ((c : ℝ) + 14 - 2 * LogRootTwoPi_)
      < (((c : ℝ) + 14) / 2) ^ c * A ^ 2 / m ^ 2) :
    0 < lgamma y - Real.log m := by
  have h := two_lgamma_sub_log y m A c hc hm hA hApos
  have hQ : (0 : ℝ) < (((c : ℝ) + 14) / 2) ^ c * A ^ 2 / m ^ 2 := by positivity
  have h1 := (Real.lt_log_iff_exp_lt hQ).2 hlo
  linarith

/-- If `t` is within `δ ≤ 1` of `log q`, then `exp t` is within `2 q δ` of `q`. -/
theorem abs_exp_sub_le (t q δ : ℝ) (hq : 0 < q) (hδ1 : δ ≤ 1) (h : |t - Real.log q| ≤ δ) :
    |Real.exp t - q| ≤ 2 * q * δ := by
  have h1 : Real.exp t = q * Real.exp (t - Real.log q) := by
    rw [Real.exp_sub, Real.exp_log hq]
    field_simp
  have h2 : |Real.exp (t - Real.log q) - 1| ≤ 2 * |t - Real.log q| :=
    Real.abs_exp_sub_one_le (h.trans hδ1)
  have h3 : Real.exp t - q = q * (Real.exp (t - Real.log q) - 1) := by rw [h1]; ring
  rw [h3, abs_mul, abs_of_pos hq]
  have h4 : |Real.exp (t - Real.log q) - 1| ≤ 2 * δ := by linarith
  calc q * |Real.exp (t - Real.log q) - 1| ≤ q * (2 * δ) :=
        mul_le_mul_of_nonneg_left h4 hq.le
    _ = 2 * q * δ := by ring

/-- The value `lgamma(1)` is positive and at most `1e-19`; it is not `0`. -/
theorem lgamma_one_bounds : 0 < lgamma (1 : ℝ) ∧ lgamma (1 : ℝ) ≤ 1e-19 := by
  have hA : lanczosLoop (1 - 1 : ℝ) 1 (lanczos_7_c 0)
      = 276552346330103932611274966752538219 / 1050000000000000000000000000000000 := by
    rw [lanczosLoop_values]
    norm_num
  have hpos : 0 < lgamma (1 : ℝ) - Real.log 1 := by
    refine lgamma_sub_log_pos 1 1 _ 1 (by norm_num) (by norm_num) hA (by norm_num) ?_
    have h := exp_le_pow_of_taylor_le (s := 32905307333976636291 / 80000000000000000000)
      (b := 18860032227574050787272713 / 12500000000000000000000000) 16 32 (by norm_num) (by norm_num)
      (by norm_num)
      (by simp only [Finset.sum_range_succ, Finset.sum_range_zero, Nat.factorial]
          norm_num)
    refine lt_of_le_of_lt (le_of_eq_of_le ?_ h) ?_
    · congr 1; norm_num [LogRootTwoPi_]
    · norm_num
  have habs : |lgamma (1 : ℝ) - Real.log 1| ≤ 1e-19 := by
    refine abs_lgamma_sub_log_le 1 1 _ _ 1 (by norm_num) (by norm_num) hA
      (by norm_num) ?_ ?_
    · have h := exp_le_pow_of_taylor_le (s := 65810614667953272581 / 160000000000000000000)
        (b := 377200644551481015743097 / 250000000000000000000000) 16 32 (by norm_num) (by norm_num)
        (by norm_num)
        (by simp only [Finset.sum_range_succ, Finset.sum_range_zero, Nat.factorial]
            norm_num)
      refine le_trans (le_of_eq_of_le ?_ h) ?_
      · congr 1; norm_num [LogRootTwoPi_]
      · norm_num
    · have h := pow_le_exp_of_le_taylor (s := 65810614667953272583 / 160000000000000000000)
        (a := 754401289102962031494621 / 500000000000000000000000) 17 32 (by norm_num) (by norm_num)
        (by simp only [Finset.sum_range_succ, Finset.sum_range_zero, Nat.factorial]
            norm_num)
      refine le_trans ?_ (le_of_le_of_eq h ?_)
      · norm_num
      · congr 1; norm_num [LogRootTwoPi_]
  rw [Real.log_one, sub_zero] at hpos habs
  exact ⟨hpos, (le_abs_self _).trans habs⟩

/-- The value `lgamma(3)` is within `1e-10` of `log 2`. -/
theorem lgamma_three_near : |lgamma (3 : ℝ) - Real.log 2| ≤ 1e-10 := by
  have hA : lanczosLoop (3 - 1 : ℝ) 1 (lanczos_7_c 0)
      = 6706048268193840710293999910827799 / 175000000000000000000000000000000 := by
    rw [lanczosLoop_values]
    norm_num
  refine abs_lgamma_sub_log_le 3 2 _ _ 5 (by norm_num) (by norm_num) hA
    (by norm_num) ?_ ?_
  · have h := exp_le_pow_of_taylor_le (s := 42905307333476636291 / 80000000000000000000)
      (b := 4274243268669421 / 2500000000000000) 11 32 (by norm_num) (by norm_num)
      (by norm_num)
      (by simp only [Finset.sum_range_succ, Finset.sum_range_zero, Nat.factorial]
          norm_num)
    refine le_trans (le_of_eq_of_le ?_ h) ?_
    · congr 1; norm_num [LogRootTwoPi_]
    · norm_num
  · have h := pow_le_exp_of_le_taylor (s := 42905307334476636291 / 80000000000000000000)
      (a := 17096973074867347 / 10000000000000000) 12 32 (by norm_num) (by norm_num)
      (by simp only [Finset.sum_range_succ, Finset.sum_range_zero, Nat.factorial]
          norm_num)
    refine le_trans ?_ (le_of_le_of_eq h ?_)
    · norm_num
    · congr 1; norm_num [LogRootTwoPi_]

/-- The value `lgamma(4)` is within `1e-10` of `log 6`. -/
theorem lgamma_four_near : |lgamma (4 : ℝ) - Real.log 6| ≤ 1e-10 := by
  have hA : lanczosLoop (4 - 1 : ℝ) 1 (lanczos_7_c 0)
      = 535306860491384191023101309313666043 / 23100000000000000000000000000000000 := by
    rw [lanczosLoop_values]
    norm_num
  refine abs_lgamma_sub_log_le 4 6 _ _ 7 (by norm_num) (by norm_num) hA
    (by norm_num) ?_ ?_
  · have h := exp_le_pow_of_taylor_le (s := 47905307333476636291 / 80000000000000000000)
      (b := 18199633102284093 / 10000000000000000) 11 32 (by norm_num) (by norm_num)
      (by norm_num)
      (by simp only [Finset.sum_range_succ, Finset.sum_range_zero, Nat.factorial]
          norm_num)
    refine le_trans (le_of_eq_of_le ?_ h) ?_
    · congr 1; norm_num [LogRootTwoPi_]
    · norm_num
  · have h := pow_le_exp_of_le_taylor (s := 47905307334476636291 / 80000000000000000000)
      (a := 18199633102430737 / 10000000000000000) 12 32 (by norm_num) (by norm_num)
      (by simp only [Finset.sum_range_succ, Finset.sum_range_zero, Nat.factorial]
          norm_num)
    refine le_trans ?_ (le_of_le_of_eq h ?_)
    · norm_num
    · congr 1; norm_num [LogRootTwoPi_]

/-- The value `lgamma(5)` is within `1e-10` of `log 24`. -/
theorem lgamma_five_near : |lgamma (5 : ℝ) - Real.log 24| ≤ 1e-10 := by
  have hA : lanczosLoop (5 - 1 : ℝ) 1 (lanczos_7_c 0)
      = 552167456567006327213026754386548547 / 34650000000000000000000000000000000 := by
    rw [lanczosLoop_values]
    norm_num
  refine abs_lgamma_sub_log_le 5 24 _ _ 9 (by norm_num) (by norm_num) hA
    (by norm_num) ?_ ?_
  · have h := exp_le_pow_of_taylor_le (s := 52905307333476636291 / 80000000000000000000)
      (b := 4843352147942503 / 2500000000000000) 11 32 (by norm_num) (by norm_num)
      (by norm_num)
      (by simp only [Finset.sum_range_succ, Finset.sum_range_zero, Nat.factorial]
          norm_num)
    refine le_trans (le_of_eq_of_le ?_ h) ?_
    · congr 1; norm_num [LogRootTwoPi_]
    · norm_num
  · have h := pow_le_exp_of_le_taylor (s := 52905307334476636291 / 80000000000000000000)
      (a := 2421676073989661 / 1250000000000000) 13 32 (by norm_num) (by norm_num)
      (by simp only [Finset.sum_range_succ, Finset.sum_range_zero, Nat.factorial]
          norm_num)
    refine le_trans ?_ (le_of_le_of_eq h ?_)
    · norm_num
    · congr 1; norm_num [LogRootTwoPi_]

/-- The value `lgamma(7)` is within `1e-10` of `log 720`. -/
theorem lgamma_seven_near : |lgamma (7 : ℝ) - Real.log 720| ≤ 1e-10 := by
  have hA : lanczosLoop (7 - 1 : ℝ) 1 (lanczos_7_c 0)
      = 771493860792146936314737711158393657 / 81900000000000000000000000000000000 := by
    rw [lanczosLoop_values]
    norm_num
  refine abs_lgamma_sub_log_le 7 720 _ _ 13 (by norm_num) (by norm_num) hA
    (by norm_num) ?_ ?_
  · have h := exp_le_pow_of_taylor_le (s := 62905307333476636291 / 160000000000000000000)
      (b := 14816527250453291 / 10000000000000000) 10 64 (by norm_num) (by norm_num)
      (by norm_num)
      (by simp only [Finset.sum_range_succ, Finset.sum_range_zero, Nat.factorial]
          norm_num)
    refine le_trans (le_of_eq_of_le ?_ h) ?_
    · congr 1; norm_num [LogRootTwoPi_]
    · norm_num
  · have h := pow_le_exp_of_le_taylor (s := 62905307334476636291 / 160000000000000000000)
      (a := 14816527250521577 / 10000000000000000) 11 64 (by norm_num) (by norm_num)
      (by simp only [Finset.sum_range_succ, Finset.sum_range_zero, Nat.factorial]
          norm_num)
    refine le_trans ?_ (le_of_le_of_eq h ?_)
    · norm_num
    · congr 1; norm_num [LogRootTwoPi_]

/-- The value `lgamma(0.5)` is within `1e-7` of `log (sqrt π)`. -/
theorem lgamma_half_near : |lgamma (0.5 : ℝ) - Real.log (Real.sqrt Real.pi)| ≤ 1e-7 := by
  have hpi := Real.pi_pos
  have hA : lanczosLoop (0.5 - 1 : ℝ) 1 (lanczos_7_c 0)
      = 349295480793712592985995549539396981751 / 450450000000000000000000000000000000 := by
    rw [lanczosLoop_values]
    norm_num
  refine abs_lgamma_sub_log_le 0.5 _ _ _ 0 (by norm_num) (Real.sqrt_pos.2 hpi) hA
    (by norm_num) ?_ ?_
  · rw [Real.sq_sqrt hpi.le]
    have h := exp_le_pow_of_taylor_le (s := 30405306833976636291 / 80000000000000000000)
      (b := 1462381594797 / 1000000000000) 8 32 (by norm_num) (by norm_num)
      (by norm_num)
      (by simp only [Finset.sum_range_succ, Finset.sum_range_zero, Nat.factorial]
          norm_num)
    have hd : ((349295480793712592985995549539396981751 / 450450000000000000000000000000000000 : ℝ)) ^ 2
          / 3.14159265358979323847
        ≤ ((349295480793712592985995549539396981751 / 450450000000000000000000000000000000 : ℝ)) ^ 2 / Real.pi :=
      div_le_div_of_nonneg_left (by norm_num) hpi Real.pi_lt_d20.le
    refine le_trans (le_trans (le_of_eq_of_le ?_ h) ?_) (le_of_le_of_eq hd ?_)
    · congr 1; norm_num [LogRootTwoPi_]
    · norm_num
    · norm_num
  · rw [Real.sq_sqrt hpi.le]
    have h := pow_le_exp_of_le_taylor (s := 30405307833976636291 / 80000000000000000000)
      (a := 731190805863 / 500000000000) 9 32 (by norm_num) (by norm_num)
      (by simp only [Finset.sum_range_succ, Finset.sum_range_zero, Nat.factorial]
          norm_num)
    have hd : ((349295480793712592985995549539396981751 / 450450000000000000000000000000000000 : ℝ)) ^ 2 / Real.pi
        ≤ ((349295480793712592985995549539396981751 / 450450000000000000000000000000000000 : ℝ)) ^ 2
          / 3.14159265358979323846 :=
      div_le_div_of_nonneg_left (by norm_num) (by norm_num) Real.pi_gt_d20.le
    refine le_trans (le_of_eq_of_le ?_ hd) (le_trans ?_ (le_of_le_of_eq h ?_))
    · norm_num
    · norm_num
    · congr 1; norm_num [LogRootTwoPi_]

/-- The number `log (sqrt π)` is within `1e-7` of `0.5723649`. -/
theorem log_sqrt_pi_near : |Real.log (Real.sqrt Real.pi) - 0.5723649| ≤ 1e-7 := by
  have hpi := Real.pi_pos
  rw [Real.log_sqrt hpi.le]
  have h1 : Real.exp 1.1447296 ≤ Real.pi := by
    have h := exp_le_pow_of_taylor_le (s := 44716 / 78125)
      (b := 1772453614023 / 1000000000000) 8 2 (by norm_num) (by norm_num)
      (by norm_num)
      (by simp only [Finset.sum_range_succ, Finset.sum_range_zero, Nat.factorial]
          norm_num)
    refine le_trans (le_trans (le_of_eq_of_le ?_ h) ?_) Real.pi_gt_d20.le
    · congr 1; norm_num
    · norm_num
  have h2 : Real.pi ≤ Real.exp 1.14473 := by
    have h := pow_le_exp_of_le_taylor (s := 114473 / 200000)
      (a := 443113483201 / 250000000000) 9 2 (by norm_num) (by norm_num)
      (by simp only [Finset.sum_range_succ, Finset.sum_range_zero, Nat.factorial]
          norm_num)
    refine le_trans Real.pi_lt_d20.le (le_trans ?_ (le_of_le_of_eq h ?_))
    · norm_num
    · congr 1; norm_num
  have h3 := (Real.le_log_iff_exp_le hpi).2 h1
  have h4 := (Real.log_le_iff_le_exp hpi).2 h2
  rw [abs_le]
  constructor <;> linarith

/-- The constant `LogRootTwoPi_` is within `1e-19` of `log (sqrt (2 π))`. -/
theorem LogRootTwoPi_near :
    |(LogRootTwoPi_ : ℝ) - Real.log (Real.sqrt (2 * Real.pi))| ≤ 1e-19 := by
  have hpi := Real.pi_pos
  have h2pi : (0 : ℝ) < 2 * Real.pi := by positivity
  rw [Real.log_sqrt h2pi.le]
  have h1 : Real.exp 1.8378770664093454834 ≤ 2 * Real.pi := by
    have h := exp_le_pow_of_taylor_le (s := 9189385332046727417 / 20000000000000000000)
      (b := 1583233487086159538522869 / 1000000000000000000000000) 16 4 (by norm_num) (by norm_num)
      (by norm_num)
      (by simp only [Finset.sum_range_succ, Finset.sum_range_zero, Nat.factorial]
          norm_num)
    have hp := Real.pi_gt_d20
    refine le_trans (le_trans (le_of_eq_of_le ?_ h) ?_)
      (by linarith : (2 : ℝ) * 3.14159265358979323846 ≤ 2 * Real.pi)
    · congr 1; norm_num
    · norm_num
  have h2 : 2 * Real.pi ≤ Real.exp 1.8378770664093454838 := by
    have h := pow_le_exp_of_le_taylor (s := 9189385332046727419 / 20000000000000000000)
      (a := 316646697417231907733881 / 200000000000000000000000) 17 4 (by norm_num) (by norm_num)
      (by simp only [Finset.sum_range_succ, Finset.sum_range_zero, Nat.factorial]
          norm_num)
    have hp := Real.pi_lt_d20
    refine le_trans (by linarith : 2 * Real.pi ≤ (2 : ℝ) * 3.14159265358979323847)
      (le_trans ?_ (le_of_le_of_eq h ?_))
    · norm_num
    · congr 1; norm_num
  have h3 := (Real.le_log_iff_exp_le h2pi).2 h1
  have h4 := (Real.log_le_iff_le_exp h2pi).2 h2
  rw [abs_le]
  norm_num [LogRootTwoPi_] at h3 h4 ⊢
  constructor <;> linarith

/-- Bounds on `exp 2`. -/
theorem exp_two_bounds : (7.38905 : ℝ) ≤ Real.exp 2 ∧ Real.exp 2 ≤ 7.38906 := by
  constructor
  · have h := pow_le_exp_of_le_taylor (s := 1 / 2)
      (a := 16487211681 / 10000000000) 8 4 (by norm_num) (by norm_num)
      (by simp only [Finset.sum_range_succ, Finset.sum_range_zero, Nat.factorial]; norm_num)
    refine le_trans ?_ (le_of_le_of_eq h ?_)
    · norm_num
    · congr 1; norm_num
  · have h := exp_le_pow_of_taylor_le (s := 1 / 2)
      (b := 2060901737 / 1250000000) 7 4 (by norm_num) (by norm_num)
      (by norm_num) (by simp only [Finset.sum_range_succ, Finset.sum_range_zero, Nat.factorial]; norm_num)
    refine le_trans (le_of_eq_of_le ?_ h) ?_
    · congr 1; norm_num
    · norm_num

/-- The value `dnbinom(2, 5, 0.5, 0)` is within `1e-9` of `15/128 = 0.1171875`. -/
theorem dnbinom_two_five_half : |dnbinom (2 : ℝ) 5 0.5 0 - 15 / 128| ≤ 1e-9 := by
  rw [dnbinom_linear]
  have e7 : (2 : ℝ) + 5 = 7 := by norm_num
  have e3 : (2 : ℝ) + 1 = 3 := by norm_num
  have eh : (1 : ℝ) - 0.5 = 0.5 := by norm_num
  rw [e7, e3, eh]
  have hlog : Real.log (15 / 128)
      = Real.log 720 - Real.log 24 - Real.log 2 + 5 * Real.log 0.5 + 2 * Real.log 0.5 := by
    have e : (15 / 128 : ℝ) = 720 / 24 / 2 * 0.5 ^ 5 * 0.5 ^ 2 := by norm_num
    rw [e, Real.log_mul (by norm_num) (by norm_num), Real.log_mul (by norm_num) (by norm_num),
      Real.log_div (by norm_num) (by norm_num), Real.log_div (by norm_num) (by norm_num),
      Real.log_pow, Real.log_pow]
    push_cast
    ring
  have h7 := abs_le.1 lgamma_seven_near
  have h5 := abs_le.1 lgamma_five_near
  have h3 := abs_le.1 lgamma_three_near
  have hd : |lgamma (7 : ℝ) - lgamma 5 - lgamma 3 + 5 * Real.log 0.5 + 2 * Real.log 0.5
      - Real.log (15 / 128)| ≤ 3e-10 := by
    rw [hlog, abs_le]
    constructor <;> norm_num at h7 h5 h3 ⊢ <;> linarith [h7.1, h7.2, h5.1, h5.2, h3.1, h3.2]
  have h := abs_exp_sub_le _ (15 / 128) 3e-10 (by norm_num) (by norm_num) hd
  refine h.trans ?_
  norm_num

/-! ## Error analysis of `lgamma` at the positive integers -/

/-- The polynomial `lanczosP` is positive on the nonnegative reals. -/
theorem lanczosP_pos (x : ℝ) (hx : 0 ≤ x) : 0 < lanczosP x := by
  unfold lanczosP
  positivity

/-- The Lanczos sum as a quotient of polynomials. -/
theorem lanczosLoop_eq_div (x : ℝ) (hx : 0 ≤ x) :
    lanczosLoop x 1 (lanczos_7_c 0)
      = lanczosP x / (10 ^ 32 * ((x + 1) * (x + 2) * (x + 3) * (x + 4) * (x + 5) * (x + 6)
          * (x + 7) * (x + 8))) := by
  have e1 : x + 1 ≠ 0 := by positivity
  have e2 : x + 2 ≠ 0 := by positivity
  have e3 : x + 3 ≠ 0 := by positivity
  have e4 : x + 4 ≠ 0 := by positivity
  have e5 : x + 5 ≠ 0 := by positivity
  have e6 : x + 6 ≠ 0 := by positivity
  have e7 : x + 7 ≠ 0 := by positivity
  have e8 : x + 8 ≠ 0 := by positivity
  rw [lanczosLoop_values]
  norm_num
  field_simp
  unfold lanczosP
  ring

/-- The Lanczos sum is positive on the nonnegative reals. -/
theorem lanczosLoop_pos (x : ℝ) (hx : 0 ≤ x) : 0 < lanczosLoop x 1 (lanczos_7_c 0) := by
  rw [lanczosLoop_eq_div x hx]
  have h := lanczosP_pos x hx
  positivity

/-- The ratio of two consecutive Lanczos sums. -/
theorem lanczosLoop_succ_div (x : ℝ) (hx : 0 ≤ x) :
    lanczosLoop (x + 1) 1 (lanczos_7_c 0) / lanczosLoop x 1 (lanczos_7_c 0)
      = lanczosP (x + 1) * (x + 1) / (lanczosP x * (x + 9)) := by
  have h0 := (lanczosP_pos x hx).ne'
  have e1 : x + 1 ≠ 0 := by positivity
  have e2 : x + 2 ≠ 0 := by positivity
  have e3 : x + 3 ≠ 0 := by positivity
  have e4 : x + 4 ≠ 0 := by positivity
  have e5 : x + 5 ≠ 0 := by positivity
  have e6 : x + 6 ≠ 0 := by positivity
  have e7 : x + 7 ≠ 0 := by positivity
  have e8 : x + 8 ≠ 0 := by positivity
  have e9 : x + 9 ≠ 0 := by positivity
  rw [lanczosLoop_eq_div x hx, lanczosLoop_eq_div (x + 1) (by linarith)]
  have a2 : x + 1 + 1 = x + 2 := by ring
  have a3 : x + 1 + 2 = x + 3 := by ring
  have a4 : x + 1 + 3 = x + 4 := by ring
  have a5 : x + 1 + 4 = x + 5 := by ring
  have a6 : x + 1 + 5 = x + 6 := by ring
  have a7 : x + 1 + 6 = x + 7 := by ring
  have a8 : x + 1 + 7 = x + 8 := by ring
  have a9 : x + 1 + 8 = x + 9 := by ring
  rw [a2, a3, a4, a5, a6, a7, a8, a9]
  field_simp
  ring

/-- The increment of `lanczosP` over a unit step. -/
theorem lanczosP_succ (x : ℝ) :
    lanczosP (x + 1) = lanczosP x
      + (1809135599533221660246516827732570791680 + 1560402071202333016747151694274469623136 * x
          + 577483846030541656558617684223960634840 * x ^ 2
          + 118874886101025879355234980629997419876 * x ^ 3
          + 14699923301264493650149335457994405100 * x ^ 4
          + 1091988020833241754409087186920801964 * x ^ 5
          + 45120833333338798980976500426986140 * x ^ 6
          + 799999999999847945821477603787824 * x ^ 7) := by
  unfold lanczosP
  ring

/-- The increment of `lanczosP` over a unit step, times `x + 1`, is at most `8 * lanczosP x`. -/
theorem lanczosP_succ_le (x : ℝ) (hx : 0 ≤ x) :
    lanczosP x ≤ lanczosP (x + 1)
      ∧ (x + 1) * (lanczosP (x + 1) - lanczosP x) ≤ 8 * lanczosP x := by
  rw [lanczosP_succ]
  constructor
  · have h : (0 : ℝ) ≤ 1809135599533221660246516827732570791680 + 1560402071202333016747151694274469623136 * x
          + 577483846030541656558617684223960634840 * x ^ 2
          + 118874886101025879355234980629997419876 * x ^ 3
          + 14699923301264493650149335457994405100 * x ^ 4
          + 1091988020833241754409087186920801964 * x ^ 5
          + 45120833333338798980976500426986140 * x ^ 6
          + 799999999999847945821477603787824 * x ^ 7 := by
      positivity
    linarith
  · have h : 8 * lanczosP x - (x + 1) * (1809135599533221660246516827732570791680 + 1560402071202333016747151694274469623136 * x
            + 577483846030541656558617684223960634840 * x ^ 2
            + 118874886101025879355234980629997419876 * x ^ 3
            + 14699923301264493650149335457994405100 * x ^ 4
            + 1091988020833241754409087186920801964 * x ^ 5
            + 45120833333338798980976500426986140 * x ^ 6
            + 799999999999847945821477603787824 * x ^ 7)
        = 6686552479727571149571850150905403296000 + 5628005916992382660580163264932211095200 * x
            + 2030809296975787031554527779157389192200 * x ^ 2
            + 407238280571367562156611496444029724100 * x ^ 3
            + 49013362997480883973978343848685896000 * x ^ 4
            + 3540497209925842613968071341900577800 * x ^ 5
            + 142125173611052546978646788989679800 * x ^ 6
            + 2445833333334874411032112042058900 * x ^ 7 := by
      unfold lanczosP
      ring
    have h2 : (0 : ℝ) ≤ 6686552479727571149571850150905403296000 + 5628005916992382660580163264932211095200 * x
            + 2030809296975787031554527779157389192200 * x ^ 2
            + 407238280571367562156611496444029724100 * x ^ 3
            + 49013362997480883973978343848685896000 * x ^ 4
            + 3540497209925842613968071341900577800 * x ^ 5
            + 142125173611052546978646788989679800 * x ^ 6
            + 2445833333334874411032112042058900 * x ^ 7 := by
      positivity
    linarith

/-- The derivative of `lanczosP`. -/
theorem lanczosP_hasDerivAt (x : ℝ) : HasDerivAt lanczosP (lanczosP1 x) x := by
  have h0 : HasDerivAt (fun _ : ℝ => (1061961009907599101227295872329746760960 : ℝ)) 0 x := hasDerivAt_const x _
  have h1 : HasDerivAt (fun y : ℝ => (1124692948465992167196728973367406438752 : ℝ) * y) (1124692948465992167196728973367406438752 * 1) x :=
    (hasDerivAt_id x).const_mul _
  have h2 := (hasDerivAt_pow 2 x).const_mul (521086901776082713107537144706977431272 : ℝ)
  have h3 := (hasDerivAt_pow 3 x).const_mul (137949626587866887258808020162248472352 : ℝ)
  have h4 := (hasDerivAt_pow 4 x).const_mul (22823521549971407122420332492084715122 : ℝ)
  have h5 := (hasDerivAt_pow 5 x).const_mul (2416551066502947252315811748351973108 : ℝ)
  have h6 := (hasDerivAt_pow 6 x).const_mul (159904253472204137546088809542183488 : ℝ)
  have h7 := (hasDerivAt_pow 7 x).const_mul (6045833333334190167228761259104108 : ℝ)
  have h8 := (hasDerivAt_pow 8 x).const_mul (99999999999980993227684700473478 : ℝ)
  refine HasDerivAt.congr_deriv ((((((((h0.add h1).add h2).add h3).add h4).add h5).add h6).add h7).add h8) ?_
  unfold lanczosP1
  norm_num
  ring

/-- The derivative of `lanczosP1`. -/
theorem lanczosP1_hasDerivAt (x : ℝ) : HasDerivAt lanczosP1 (lanczosP2 x) x := by
  have h0 : HasDerivAt (fun _ : ℝ => (1124692948465992167196728973367406438752 : ℝ)) 0 x := hasDerivAt_const x _
  have h1 : HasDerivAt (fun y : ℝ => (1042173803552165426215074289413954862544 : ℝ) * y) (1042173803552165426215074289413954862544 * 1) x :=
    (hasDerivAt_id x).const_mul _
  have h2 := (hasDerivAt_pow 2 x).const_mul (413848879763600661776424060486745417056 : ℝ)
  have h3 := (hasDerivAt_pow 3 x).const_mul (91294086199885628489681329968338860488 : ℝ)
  have h4 := (hasDerivAt_pow 4 x).const_mul (12082755332514736261579058741759865540 : ℝ)
  have h5 := (hasDerivAt_pow 5 x).const_mul (959425520833224825276532857253100928 : ℝ)
  have h6 := (hasDerivAt_pow 6 x).const_mul (42320833333339331170601328813728756 : ℝ)
  have h7 := (hasDerivAt_pow 7 x).const_mul (799999999999847945821477603787824 : ℝ)
  refine HasDerivAt.congr_deriv (((((((h0.add h1).add h2).add h3).add h4).add h5).add h6).add h7) ?_
  unfold lanczosP2
  norm_num
  ring

/-- The derivative of `log (2 y + c)` for `c > 0` at `x ≥ 0`. -/
theorem hasDerivAt_log_two_mul_add (c x : ℝ) (hc : 0 < c) (hx : 0 ≤ x) :
    HasDerivAt (fun y : ℝ => Real.log (2 * y + c)) (2 / (2 * x + c)) x := by
  have h := (((hasDerivAt_id' x).const_mul (2 : ℝ)).add_const c).log (by positivity)
  exact h.congr_deriv (by rw [mul_one])

/-- The derivative of `2 / (2 y + c)` for `c > 0` at `x ≥ 0`. -/
theorem hasDerivAt_two_div_two_mul_add (c x : ℝ) (hc : 0 < c) (hx : 0 ≤ x) :
    HasDerivAt (fun y : ℝ => 2 / (2 * y + c)) (-4 / (2 * x + c) ^ 2) x := by
  have h := (hasDerivAt_const x (2 : ℝ)).div
    (((hasDerivAt_id' x).const_mul (2 : ℝ)).add_const c) (by positivity)
  exact h.congr_deriv (by ring)

/-- The step error `lgamma(x+2) - lgamma(x+1) - log(x+1)`, in the form used below, has an
explicit derivative at every `x ≥ 0`. -/
theorem stepErr_hasDerivAt (x : ℝ) (hx : 0 ≤ x) :
    HasDerivAt (fun y : ℝ => (y + 1 / 2) * (Real.log (2 * y + 17) - Real.log (2 * y + 15))
        + Real.log (2 * y + 17) - Real.log (y + 9) - Real.log 2 - 1
        + Real.log (lanczosP (y + 1)) - Real.log (lanczosP y))
      (1 * (Real.log (2 * x + 17) - Real.log (2 * x + 15))
        + (x + 1 / 2) * (2 / (2 * x + 17) - 2 / (2 * x + 15))
        + 2 / (2 * x + 17) - 1 / (x + 9)
        + lanczosP1 (x + 1) / lanczosP (x + 1) - lanczosP1 x / lanczosP x) x := by
  have p0 := lanczosP_pos x hx
  have p1 := lanczosP_pos (x + 1) (by linarith)
  have h17 := hasDerivAt_log_two_mul_add 17 x (by norm_num) hx
  have h15 := hasDerivAt_log_two_mul_add 15 x (by norm_num) hx
  have h9 : HasDerivAt (fun y : ℝ => Real.log (y + 9)) (1 / (x + 9)) x :=
    ((hasDerivAt_id' x).add_const (9 : ℝ)).log (by positivity)
  have hP : HasDerivAt (fun y : ℝ => Real.log (lanczosP y)) (lanczosP1 x / lanczosP x) x :=
    (lanczosP_hasDerivAt x).log p0.ne'
  have hP1 : HasDerivAt (fun y : ℝ => Real.log (lanczosP (y + 1)))
      (lanczosP1 (x + 1) / lanczosP (x + 1)) x :=
    HasDerivAt.comp_add_const x 1 ((lanczosP_hasDerivAt (x + 1)).log p1.ne')
  have hlin : HasDerivAt (fun y : ℝ => y + 1 / 2) 1 x := (hasDerivAt_id' x).add_const _
  have h := ((((((hlin.mul (h17.sub h15)).add h17).sub h9).sub_const (Real.log 2)).sub_const
    1).add hP1).sub hP
  exact h

/-- The derivative of the step error has an explicit derivative at every `x ≥ 0`. -/
theorem stepErr1_hasDerivAt (x : ℝ) (hx : 0 ≤ x) :
    HasDerivAt (fun y : ℝ => 1 * (Real.log (2 * y + 17) - Real.log (2 * y + 15))
        + (y + 1 / 2) * (2 / (2 * y + 17) - 2 / (2 * y + 15))
        + 2 / (2 * y + 17) - 1 / (y + 9)
        + lanczosP1 (y + 1) / lanczosP (y + 1) - lanczosP1 y / lanczosP y)
      (4 / (2 * x + 17) - 4 / (2 * x + 15) + (4 * x + 2) / (2 * x + 15) ^ 2
        - (4 * x + 2) / (2 * x + 17) ^ 2 - 4 / (2 * x + 17) ^ 2 + 1 / (x + 9) ^ 2
        + (lanczosP2 (x + 1) * lanczosP (x + 1) - lanczosP1 (x + 1) ^ 2)
            / lanczosP (x + 1) ^ 2
        - (lanczosP2 x * lanczosP x - lanczosP1 x ^ 2) / lanczosP x ^ 2) x := by
  have p0 := lanczosP_pos x hx
  have p1 := lanczosP_pos (x + 1) (by linarith)
  have h17 := hasDerivAt_log_two_mul_add 17 x (by norm_num) hx
  have h15 := hasDerivAt_log_two_mul_add 15 x (by norm_num) hx
  have k17 := hasDerivAt_two_div_two_mul_add 17 x (by norm_num) hx
  have k15 := hasDerivAt_two_div_two_mul_add 15 x (by norm_num) hx
  have k9 : HasDerivAt (fun y : ℝ => 1 / (y + 9)) (-1 / (x + 9) ^ 2) x := by
    have h := (hasDerivAt_const x (1 : ℝ)).div ((hasDerivAt_id' x).add_const (9 : ℝ))
      (by positivity)
    exact h.congr_deriv (by ring)
  have kP : ∀ z : ℝ, 0 ≤ z → HasDerivAt (fun y : ℝ => lanczosP1 y / lanczosP y)
      ((lanczosP2 z * lanczosP z - lanczosP1 z * lanczosP1 z) / lanczosP z ^ 2) z :=
    fun z hz => (lanczosP1_hasDerivAt z).div (lanczosP_hasDerivAt z) (lanczosP_pos z hz).ne'
  have kP1 : HasDerivAt (fun y : ℝ => lanczosP1 (y + 1) / lanczosP (y + 1))
      ((lanczosP2 (x + 1) * lanczosP (x + 1) - lanczosP1 (x + 1) * lanczosP1 (x + 1))
        / lanczosP (x + 1) ^ 2) x :=
    HasDerivAt.comp_add_const x 1 (kP (x + 1) (by linarith))
  have hlin : HasDerivAt (fun y : ℝ => y + 1 / 2) 1 x := (hasDerivAt_id' x).add_const _
  have hone : HasDerivAt (fun _ : ℝ => (1 : ℝ)) 0 x := hasDerivAt_const x 1
  have h := ((((hone.mul (h17.sub h15)).add (hlin.mul (k17.sub k15))).add k17).sub k9).add kP1
    |>.sub (kP x hx)
  refine h.congr_deriv ?_
  have e17 : 2 * x + 17 ≠ 0 := by positivity
  have e15 : 2 * x + 15 ≠ 0 := by positivity
  have e9 : x + 9 ≠ 0 := by positivity
  rw [← pow_two, ← pow_two]
  congr 2
  field_simp
  ring

/-- The second derivative of the step error, times `10^11`, is at most `24 / (x + 2)^4`. -/
theorem stepErr2_le (x : ℝ) (hx : 0 ≤ x) :
    0 ≤ 24 / (x + 2) ^ 4 - 100000000000 * (4 / (2 * x + 17) - 4 / (2 * x + 15) + (4 * x + 2) / (2 * x + 15) ^ 2
        - (4 * x + 2) / (2 * x + 17) ^ 2 - 4 / (2 * x + 17) ^ 2 + 1 / (x + 9) ^ 2
        + (lanczosP2 (x + 1) * lanczosP (x + 1) - lanczosP1 (x + 1) ^ 2)
            / lanczosP (x + 1) ^ 2
        - (lanczosP2 x * lanczosP x - lanczosP1 x ^ 2) / lanczosP x ^ 2) := by
  have h0 := lanczosP_pos x hx
  have h1 := lanczosP_pos (x + 1) (by linarith)
  have e0 : lanczosP x ≠ 0 := h0.ne'
  have e1 : lanczosP (x + 1) ≠ 0 := h1.ne'
  have e2 : x + 2 ≠ 0 := by positivity
  have e3 : 2 * x + 15 ≠ 0 := by positivity
  have e4 : 2 * x + 17 ≠ 0 := by positivity
  have e5 : x + 9 ≠ 0 := by positivity
  have key : 24 / (x + 2) ^ 4 - 100000000000 * (4 / (2 * x + 17) - 4 / (2 * x + 15) + (4 * x + 2) / (2 * x + 15) ^ 2
        - (4 * x + 2) / (2 * x + 17) ^ 2 - 4 / (2 * x + 17) ^ 2 + 1 / (x + 9) ^ 2
        + (lanczosP2 (x + 1) * lanczosP (x + 1) - lanczosP1 (x + 1) ^ 2)
            / lanczosP (x + 1) ^ 2
        - (lanczosP2 x * lanczosP x - lanczosP1 x ^ 2) / lanczosP x ^ 2)
      = (1175185967359506278442036026969535225733342514718139726527582662085649484099821859510649984975168560058091654550481222242675042302033510111589632384895230672896000000
            + 5538218440164071372783846351001754252901430352823597278320138405402202460009469334901959432381385523672368544465956833780143109882821023663583450588632739898982400000 * x
            + 12704865894536682221783431159044117966955888209319039612130603568303281975220871963398745115787045987966658281227308685830695599488780825605809184833266996803010560000 * x ^ 2
            + 18902942403184811718655963573817454502919592600522530247440728773924750963837313559777784607444478270968601952811255415761229852499257249072846407774029865442869248000 * x ^ 3
            + 20505273104564409962966014361938357235869956458151711368370010561852013688437126624731724710534645572292920012385640820009204347816826031402560192331005957245396582400 * x ^ 4
            + 17284285892191623202324637841136996363796072540538278744654455473615438739054494008652154408547843145042890840907819774573515488280080095479544001805029108749686538240 * x ^ 5
            + 11782509709748229190633312124692722384946636645956208754256898707622989224332917524997069581229075400850718021548383006215064137307008542740005524677734436693988081664 * x ^ 6
            + 6675097692086267023943856505503253471915852253300026346946976019761419922060324903129011071136600559535186323429752364868663603257391167814912963642314081680689725440 * x ^ 7
            + 3205084494706610213141548085200660068390467667769175641531171385461230993207460542597397940849220249063208307301421610022842218495631080022321552049303811364846960640 * x ^ 8
            + 1323640498791026071464959016174981990807803093473978967302216341788133551608229200748072377546446516500806689017631042595539299152480117608105090459809565811199508480 * x ^ 9
            + 475513255631925182250580154182314621222391490211221379289546504132308561974028368510102699738781595266253390992199526509150141130373579668201943809852500713094504448 * x ^ 10
            + 149922863882748545358428087128612415665966872278451048898758297211894435694055486749134722345127090955779049617033031545520753801268422488038399676450934741196267520 * x ^ 11
            + 41777139641709987706572740194398689356864346245150182688917137990284705622187887898807614940109946082804598079987555824603285832253690765966794996871503623886366720 * x ^ 12
            + 10346840451228698404857836841984694273171928608785167950829669298879278442020948266116093832974565217318488593661366153285163315428292598224605688694183440776990720 * x ^ 13
            + 2287755702844823058492977298539570997042620296035512707324571928973484040613320473804008822586541843111239379860796554094583353184524142211986231281869338633308672 * x ^ 14
            + 453176518513142399406915807181469226591897891876467325715678815786044289736390581953421666169154956000324649130369797750698775805781922871714268735592087477296640 * x ^ 15
            + 80640793231947893785740387141343186868012046223858131871193012025513075656353778441097577169129570380989077289134341733734639857019437051644937801150136816723840 * x ^ 16
            + 12916423774052164867058969492475072292907442229432009604116128687549439002504532593371165422474580177213205145022259582000680410367317845682251389123966443196160 * x ^ 17
            + 1864795166854587917864870254790864375301979404730832189786648587652934490420384346757817096981004759695609551879441103701467543917283669696348059813873000405376 * x ^ 18
            + 242872457341431907538460096529432829959954152377578593442622586068146991052294346588076243221969073746692982087756628014972245864946638740857209115302686873600 * x ^ 19
            + 28543864478733567495432009215539846641788205129212926761292214139751252677609352630800559007742626143453054103567226999252037762306765678271566448743754969600 * x ^ 20
            + 3026518485353330543493536275030568391661683624958327855533378604529434200461227401939153467969267889736095421311495078859126347117485770902603421732624204800 * x ^ 21
            + 289304126051905303401162830255630306026400038881420143618868056031415175185257538949383228462969318656328323001961238731070620482404294820483129091193530880 * x ^ 22
            + 24899446351542524542466154216021565317194627664587658140295607829086910992948936989876948099937008237742920603692308354331532236772747984814020529025510400 * x ^ 23
            + 1925815223004283393553979190323029066588357825156724416229561639105720668388499085292927544762696099207824707390662554070346125257887957507856206135712000 * x ^ 24
            + 133494143535060139629950108319432807132190869608031675857800549227080734529796334397795837386377448692638327798540036862268300473460102060811117502466560 * x ^ 25
            + 8263276718816832324824105389972403726727771403349087248160106347122020489461075264627011060611587555107582750487019747865792814691151117757291362780416 * x ^ 26
            + 454557142921652722264698361577708831431985598229779003261866975884981655466650390180430405231990621299473457483289853883525937046806675086542862069760 * x ^ 27
            + 22081797270380553228402308326147148554963516930780410558708153663173398777144497846227766422217944628157695635786411311999532932808399492255005826560 * x ^ 28
            + 939670439918045018201365955438215657221885793505431549247782893085644901651762421910286694907534416083104689441066790837445695799322724751577400320 * x ^ 29
            + 34671826294581749695987762265090703033965401807579886661506649623596932896992946862490328360172690050751365002286249908485343843156902159975749632 * x ^ 30
            + 1095345338982699789967342317755565705368928147466117969148874655248939170892453634474350097398686619326095289247848649153427446479359346825684480 * x ^ 31
            + 29178835322721331961658045310826308268280761063175096887262966441724356852803291039348485822408695669388824544924118070116657472123638714129280 * x ^ 32
            + 643781253462045790337139972497806022841430841382453334667849112107724377763958201237942568963568313695147533211422549643202714250298552590080 * x ^ 33
            + 11525711898681513275999290952522337894971197999848511871168843168287306940660862360929703842073172967818488190397499621138706358208442932608 * x ^ 34
            + 163509037889669675678154535274285445797753032810861251168797473657861436465090015919074578685768894068435070168512027383298471596767324160 * x ^ 35
            + 1776580092321351243363673121828003079004006902900462645902241178626988521973536692281896726452178104011097944850660868088789376546728960 * x ^ 36
            + 13679939507310007918826836267898859697228103292535187743102144513539861093270632399986469172217326466701267442174949318241381454704640 * x ^ 37
            + 57657136047867757710520090346771658651662264420176368687637295845311438151109855350433412904033880690462120035356436165222498146304 * x ^ 38)
        / ((x + 2) ^ 4 * (2 * x + 15) ^ 2 * (2 * x + 17) ^ 2 * (x + 9) ^ 2
            * lanczosP x ^ 2 * lanczosP (x + 1) ^ 2) := by
    field_simp
    unfold lanczosP lanczosP1 lanczosP2
    ring
  rw [key]
  positivity

/-- The second derivative of the step error, times `10^11`, is at least `-24 / (x + 2)^4`. -/
theorem neg_stepErr2_le (x : ℝ) (hx : 0 ≤ x) :
    0 ≤ 24 / (x + 2) ^ 4 + 100000000000 * (4 / (2 * x + 17) - 4 / (2 * x + 15) + (4 * x + 2) / (2 * x + 15) ^ 2
        - (4 * x + 2) / (2 * x + 17) ^ 2 - 4 / (2 * x + 17) ^ 2 + 1 / (x + 9) ^ 2
        + (lanczosP2 (x + 1) * lanczosP (x + 1) - lanczosP1 (x + 1) ^ 2)
            / lanczosP (x + 1) ^ 2
        - (lanczosP2 x * lanczosP x - lanczosP1 x ^ 2) / lanczosP x ^ 2) := by
  have h0 := lanczosP_pos x hx
  have h1 := lanczosP_pos (x + 1) (by linarith)
  have e0 : lanczosP x ≠ 0 := h0.ne'
  have e1 : lanczosP (x + 1) ≠ 0 := h1.ne'
  have e2 : x + 2 ≠ 0 := by positivity
  have e3 : 2 * x + 15 ≠ 0 := by positivity
  have e4 : 2 * x + 17 ≠ 0 := by positivity
  have e5 : x + 9 ≠ 0 := by positivity
  have key : 24 / (x + 2) ^ 4 + 100000000000 * (4 / (2 * x + 17) - 4 / (2 * x + 15) + (4 * x + 2) / (2 * x + 15) ^ 2
        - (4 * x + 2) / (2 * x + 17) ^ 2 - 4 / (2 * x + 17) ^ 2 + 1 / (x + 9) ^ 2
        + (lanczosP2 (x + 1) * lanczosP (x + 1) - lanczosP1 (x + 1) ^ 2)
            / lanczosP (x + 1) ^ 2
        - (lanczosP2 x * lanczosP x - lanczosP1 x ^ 2) / lanczosP x ^ 2)
      = (1175092779769068244323831262805419944148868298970538113838380309339830660853046262269867535395590775554939870924770576236383963061073880385473474273151230672896000000
            + 5538077145013422314477700674224819584267276292708398769631033043160531629235420820916280172610855165309517605324302106847607420616920025364443186606757539898982400000 * x
            + 12705052057288429255896230720506243772211378461287397294805469384593806925383794321991346467824122011276933306012333948901028584419938862180423536806192436803010560000 * x ^ 2
            + 18903596553011944677040648085359771175478319963707621143347709726355880935012728786059608974841916841649027426316611712292317460343008861530288854437513257442869248000 * x ^ 3
            + 20505956161013669934704746195592687052350252653405558984231025095337595498547215636484645677417808173768918619168560341128214301019752903288589088642292126845396582400 * x ^ 4
            + 17284561460285119871352277542705410624810962261034867899928236241113544031040211892934272760380654999079278593265572309380810881306039839327812243276304116749686538240 * x ^ 5
            + 11782420659581654314547630878995415075191114317580053625966140569430773029865197756066753390077952523532215186731543628433107735913474826731109876207647985493988081664 * x ^ 6
            + 6674925877552215786577197450641192149660803836974388189819902572215395924002412235542319162497455422615641583854624357876990654381341132373617745701240980880689725440 * x ^ 7
            + 3204989190084604271761405372699214994847201912775488817742504646486292722374838222130291070464421276976645192271800882214181559651719084203692880437004956964846960640 * x ^ 8
            + 1323618223778398714799047174296032838846232403029792922332854999861998933087541311152572294680622445024547501628532290532657913408942747609489456979310365811199508480 * x ^ 9
            + 475517002760969224168661660920890231684063371760301566860521775092743040672365062612075212535484801695711129343923482137823749817668815070812875497273223913094504448 * x ^ 10
            + 149927754487655206430198927789637749057652299659271937461109611351504920239361767072771173946574592944362868281398562429285784303990816257058667166235561941196267520 * x ^ 11
            + 41778937998104059130088594272827161187538164281028904453606814096569888598071978805758645133086790571201600714137521482631231536016217800630889358774198023886366720 * x ^ 12
            + 10347134566185640691603102988012337030170989222229768049779197299790768834619072358247779162522850756285417789088823214485394638413320178808545297553217040776990720 * x ^ 13
            + 2287728586346446298225003964650855436125279194741696957392082508719109814387503769315566757932898967189137621193918047566006374115879507039559915937382938633308672 * x ^ 14
            + 453147552714117127431404580990506779498336009591026813396196801952933163461772673172173208429930425764533384220436069842816794526615712405812281405953687477296640 * x ^ 15
            + 80632745070335619067327039329315691675462580963634979957153981124616558746404917464871284183266976788582646692444234775863152056330951541179548504548536816723840 * x ^ 16
            + 12915330333961073884340313261497536058641911368967232605233061359229069746232266312656094513189593097243292507745225880812195143462820511864840474474366443196160 * x ^ 17
            + 1864811095025766793123135138394359164884068845990806974288812442490767022666600192855259051294301072263630652592654921017791935131911095015521683852273000405376 * x ^ 18
            + 242915727420168592500987499835240935623350794635365706116035936222378039875497947529076023563751101007208623754890844107876643050073833037153853467302686873600 * x ^ 19
            + 28554463112795056453885868317181262139519292727058484306500705286253598959417669068090092638096773135343609680186858409408085344921809972570276992743754969600 * x ^ 20
            + 3027931532667761817213669554486489435992070278832910940252360024456250466063476785674147900187367845382129391246683259875236681082375016742643485732624204800 * x ^ 21
            + 289383641713100741693752223717913325748720593299797078182660985585095995117956380056616792544545560344587000946007155498728766320973555424113785091193530880 * x ^ 22
            + 24888598892242002288590838972773976775109493920227763463934875659938509778389940534345556620832839864639432601064556149335015603259487468063428529025510400 * x ^ 23
            + 1922219500247133471696088015160360172651734558534656609461313388897082866286696981064990912570293477941088356474011048864265361616767016645814606135712000 * x ^ 24
            + 132949989866957164022230830746081253808331216856125031734345222905744679966886851325666649332529705409789217062081170703647865194910392245131117502466560 * x ^ 25
            + 8206988199512984277893858719000326382948922635518500824880826571923164475039220432708843953267048361832151325824152697382467137878399785072491362780416 * x ^ 26
            + 450316111146316532405680115987143955162117924937930337802822275410339618784652202793150453886013747896313683922406825395377225474391499867342862069760 * x ^ 27
            + 21855906894457639083825449337526118145758456730073068871321735265366211999994181706669777279041533006127803430662359262593535623857763146655005826560 * x ^ 28
            + 932733691248533869244740788792599183495524760197127508706120917623872335033637212864882567177544271872168088867999617774014773761032548751577400320 * x ^ 29
            + 34738861982927301919933367923525751847640743160250659705851271181050291104374012177203702104616017946243873315264084825766042352295538959975749632 * x ^ 30
            + 1117777049877904132852421186018537861560130115467343567891962673004590426840013939942902840825048056941202785960711996956847032969164146825684480 * x ^ 31
            + 30627827350775609897163370803531674741309985784979188131909118219286126803566504292492876546903063878546320240610919906181980974229238714129280 * x ^ 32
            + 699380287416127322382231764270803627521166743128134462115547664415625442222590071150606866916853449805038419726237927866705451568698552590080 * x ^ 33
            + 12869579196150625252043956650196512097614517979713183901976481268553566092597176820349985933754881593563198804660169746699788828608442932608 * x ^ 34
            + 180785338264335790451167329939510464620403389326235859976915994828383921876221313717082179624290579653866913704954152140024845996767324160 * x ^ 35
            + 1766051374344181187520369723911288240156376566048777418382175039775015263457560595897343293065157531912423627695693324725118976546728960 * x ^ 36
            + 9961660492678180344373720469750015940993604447981678971405723176512503290321009096072903774970651573588417540532600601722981454704640 * x ^ 37
            + 19142863952073853484927326154493465753159424468788784295954406406609607180611149099282103568693116052784324340492577822822498146304 * x ^ 38)
        / ((x + 2) ^ 4 * (2 * x + 15) ^ 2 * (2 * x + 17) ^ 2 * (x + 9) ^ 2
            * lanczosP x ^ 2 * lanczosP (x + 1) ^ 2) := by
    field_simp
    unfold lanczosP lanczosP1 lanczosP2
    ring
  rw [key]
  positivity

/-- A function on the nonnegative reals with nonnegative second derivative is convex. -/
theorem convexOn_Ici_of_hasDerivAt (g g1 g2 : ℝ → ℝ)
    (h1 : ∀ x, 0 ≤ x → HasDerivAt g (g1 x) x) (h2 : ∀ x, 0 ≤ x → HasDerivAt g1 (g2 x) x)
    (h3 : ∀ x, 0 ≤ x → 0 ≤ g2 x) : ConvexOn ℝ (Set.Ici 0) g := by
  have hd1 : ∀ x ∈ Set.Ioi (0 : ℝ), deriv g x = g1 x := fun x hx => (h1 x (le_of_lt hx)).deriv
  refine convexOn_of_deriv2_nonneg (convex_Ici 0) ?_ ?_ ?_ ?_
  · exact fun x hx => (h1 x hx).continuousAt.continuousWithinAt
  · rw [interior_Ici]
    exact fun x hx => (h1 x (le_of_lt hx)).differentiableAt.differentiableWithinAt
  · rw [interior_Ici]
    have hg1 : DifferentiableOn ℝ g1 (Set.Ioi 0) :=
      fun x hx => (h2 x (le_of_lt hx)).differentiableAt.differentiableWithinAt
    exact hg1.congr hd1
  · rw [interior_Ici]
    intro x hx
    have he : deriv g =ᶠ[nhds x] g1 :=
      Filter.eventuallyEq_of_mem (Ioi_mem_nhds hx) hd1
    have h5 : deriv (deriv g) x = g2 x := by
      rw [he.deriv_eq]
      exact (h2 x (le_of_lt hx)).deriv
    have h6 : deriv^[2] g x = deriv (deriv g) x := rfl
    rw [h6, h5]
    exact h3 x (le_of_lt hx)

/-- A convex function on the nonnegative reals that decays like `C / (x + 1)` is nonnegative. -/
theorem nonneg_of_convexOn_of_decay (g : ℝ → ℝ) (C : ℝ) (hg : ConvexOn ℝ (Set.Ici 0) g)
    (h4 : ∀ x, 0 ≤ x → |g x| ≤ C / (x + 1)) : ∀ x, 0 ≤ x → 0 ≤ g x := by
  intro x0 hx0
  by_contra hneg
  push_neg at hneg
  have hC : 0 ≤ C := by
    have h := h4 0 le_rfl
    have h' := (abs_nonneg (g 0)).trans h
    simpa using h'
  have hδ : 0 < -g x0 := by linarith
  -- the step `t`
  obtain ⟨t, ht0, ht⟩ : ∃ t : ℝ, 0 < t ∧ 2 * C < -g x0 * t := by
    refine ⟨(2 * C + 1) / (-g x0), by positivity, ?_⟩
    rw [mul_div_cancel₀ _ hδ.ne']
    linarith
  have hx1 : 0 ≤ x0 + t := by linarith
  have hx2 : 0 ≤ x0 + 3 * t := by linarith
  have hconv := hg.2 (Set.mem_Ici.2 hx0) (Set.mem_Ici.2 hx2) (by norm_num : (0 : ℝ) ≤ 2 / 3)
    (by norm_num : (0 : ℝ) ≤ 1 / 3) (by norm_num)
  have hpt : (2 / 3 : ℝ) • x0 + (1 / 3 : ℝ) • (x0 + 3 * t) = x0 + t := by
    simp only [smul_eq_mul]
    ring
  rw [hpt] at hconv
  simp only [smul_eq_mul] at hconv
  have b1 := abs_le.1 (h4 (x0 + t) hx1)
  have b2 := abs_le.1 (h4 (x0 + 3 * t) hx2)
  have c1 : C / (x0 + t + 1) ≤ C / t :=
    div_le_div_of_nonneg_left hC ht0 (by linarith)
  have c2 : C / (x0 + 3 * t + 1) ≤ C / t :=
    div_le_div_of_nonneg_left hC ht0 (by linarith)
  have c3 : C / t * t = C := div_mul_cancel₀ C ht0.ne'
  have k1 : -(C / t) ≤ g (x0 + t) := by linarith [b1.1]
  have k2 : g (x0 + 3 * t) ≤ C / t := by linarith [b2.2]
  have k3 : (2 / 3) * (-g x0) ≤ (4 / 3) * (C / t) := by linarith
  have k4 : (2 / 3) * (-g x0) * t ≤ (4 / 3) * (C / t) * t :=
    mul_le_mul_of_nonneg_right k3 ht0.le
  have k5 : (4 / 3) * (C / t) * t = (4 / 3) * C := by rw [mul_assoc, c3]
  nlinarith

/-- Twice differentiable, second derivative at most `24 / (x + 2)^4` in absolute value, and
decay like `C / (x + 1)`: then the function is at most `4 / (x + 2)^2` in absolute value. -/
theorem abs_le_of_deriv2_abs_le (f f1 f2 : ℝ → ℝ) (C : ℝ)
    (h1 : ∀ x, 0 ≤ x → HasDerivAt f (f1 x) x) (h2 : ∀ x, 0 ≤ x → HasDerivAt f1 (f2 x) x)
    (h3 : ∀ x, 0 ≤ x → |f2 x| ≤ 24 / (x + 2) ^ 4)
    (h4 : ∀ x, 0 ≤ x → |f x| ≤ C / (x + 1)) :
    ∀ x, 0 ≤ x → |f x| ≤ 4 / (x + 2) ^ 2 := by
  have hC : 0 ≤ C := by
    have h := (abs_nonneg (f 0)).trans (h4 0 le_rfl)
    simpa using h
  -- the comparison function and its derivatives
  have k1 : ∀ x : ℝ, 0 ≤ x → HasDerivAt (fun y : ℝ => 4 / (y + 2) ^ 2) (-8 / (x + 2) ^ 3) x := by
    intro x hx
    have e : x + 2 ≠ 0 := by positivity
    have h := (hasDerivAt_const x (4 : ℝ)).div (((hasDerivAt_id' x).add_const (2 : ℝ)).pow 2)
      (by positivity)
    refine h.congr_deriv ?_
    field_simp
    ring
  have k2 : ∀ x : ℝ, 0 ≤ x → HasDerivAt (fun y : ℝ => -8 / (y + 2) ^ 3) (24 / (x + 2) ^ 4) x := by
    intro x hx
    have e : x + 2 ≠ 0 := by positivity
    have h := (hasDerivAt_const x (-8 : ℝ)).div (((hasDerivAt_id' x).add_const (2 : ℝ)).pow 3)
      (by positivity)
    refine h.congr_deriv ?_
    field_simp
    ring
  have decay : ∀ x : ℝ, 0 ≤ x → 4 / (x + 2) ^ 2 ≤ 4 / (x + 1) := by
    intro x hx
    apply div_le_div_of_nonneg_left (by norm_num) (by positivity)
    nlinarith
  intro x hx
  have hplus : 0 ≤ 4 / (x + 2) ^ 2 - f x := by
    refine nonneg_of_convexOn_of_decay (fun y => 4 / (y + 2) ^ 2 - f y) (4 + C)
      (convexOn_Ici_of_hasDerivAt _ (fun y => -8 / (y + 2) ^ 3 - f1 y)
        (fun y => 24 / (y + 2) ^ 4 - f2 y) (fun y hy => (k1 y hy).sub (h1 y hy))
        (fun y hy => (k2 y hy).sub (h2 y hy)) ?_) ?_ x hx
    · intro y hy
      have h := (abs_le.1 (h3 y hy)).2
      linarith
    · intro y hy
      have ha := abs_le.1 (h4 y hy)
      have hd := decay y hy
      have hp : (0 : ℝ) ≤ 4 / (y + 2) ^ 2 := by positivity
      have hs : (4 + C) / (y + 1) = 4 / (y + 1) + C / (y + 1) := by ring
      rw [hs, abs_le]
      constructor <;> linarith [ha.1, ha.2]
  have hminus : 0 ≤ 4 / (x + 2) ^ 2 + f x := by
    refine nonneg_of_convexOn_of_decay (fun y => 4 / (y + 2) ^ 2 + f y) (4 + C)
      (convexOn_Ici_of_hasDerivAt _ (fun y => -8 / (y + 2) ^ 3 + f1 y)
        (fun y => 24 / (y + 2) ^ 4 + f2 y) (fun y hy => (k1 y hy).add (h1 y hy))
        (fun y hy => (k2 y hy).add (h2 y hy)) ?_) ?_ x hx
    · intro y hy
      have h := (abs_le.1 (h3 y hy)).1
      linarith
    · intro y hy
      have ha := abs_le.1 (h4 y hy)
      have hd := decay y hy
      have hp : (0 : ℝ) ≤ 4 / (y + 2) ^ 2 := by positivity
      have hs : (4 + C) / (y + 1) = 4 / (y + 1) + C / (y + 1) := by ring
      rw [hs, abs_le]
      constructor <;> linarith [ha.1, ha.2]
  rw [abs_le]
  constructor <;> linarith

/-- Elementary bounds on a difference of logarithms. -/
theorem log_sub_log_bounds (a b : ℝ) (ha : 0 < a) (hb : 0 < b) :
    (a - b) / a ≤ Real.log a - Real.log b ∧ Real.log a - Real.log b ≤ (a - b) / b := by
  rw [← Real.log_div ha.ne' hb.ne']
  have hab : 0 < a / b := div_pos ha hb
  have h1 := Real.one_sub_inv_le_log_of_pos hab
  have h2 := Real.log_le_sub_one_of_pos hab
  have e1 : 1 - (a / b)⁻¹ = (a - b) / a := by
    field_simp
  have e2 : a / b - 1 = (a - b) / b := by
    field_simp
  rw [e1] at h1
  rw [e2] at h2
  exact ⟨h1, h2⟩

/-- The step error decays at least like `9 / (x + 1)`. -/
theorem stepErr_decay (x : ℝ) (hx : 0 ≤ x) :
    |(x + 1 / 2) * (Real.log (2 * x + 17) - Real.log (2 * x + 15))
        + Real.log (2 * x + 17) - Real.log (x + 9) - Real.log 2 - 1
        + Real.log (lanczosP (x + 1)) - Real.log (lanczosP x)| ≤ 9 / (x + 1) := by
  have p0 := lanczosP_pos x hx
  have p1 := lanczosP_pos (x + 1) (by linarith)
  have hP := lanczosP_succ_le x hx
  obtain ⟨a1, a2⟩ := log_sub_log_bounds (2 * x + 17) (2 * x + 15) (by positivity) (by positivity)
  obtain ⟨b1, b2⟩ := log_sub_log_bounds (2 * x + 17) (2 * (x + 9)) (by positivity)
    (by positivity)
  obtain ⟨c1, c2⟩ := log_sub_log_bounds (lanczosP (x + 1)) (lanczosP x) p1 p0
  have hlog2 : Real.log (2 * (x + 9)) = Real.log 2 + Real.log (x + 9) :=
    Real.log_mul (by norm_num) (by positivity)
  rw [hlog2] at b1 b2
  have hx1 : (0 : ℝ) < x + 1 := by positivity
  have hxh : (0 : ℝ) ≤ x + 1 / 2 := by positivity
  -- the first term
  have t1 : (x + 1 / 2) * (Real.log (2 * x + 17) - Real.log (2 * x + 15)) ≤ 1 := by
    have h := mul_le_mul_of_nonneg_left a2 hxh
    have h' : (x + 1 / 2) * ((2 * x + 17 - (2 * x + 15)) / (2 * x + 15)) ≤ 1 := by
      rw [← mul_div_assoc, div_le_one (by positivity)]
      linarith
    linarith
  have t2 : 1 - 8 / (x + 1)
      ≤ (x + 1 / 2) * (Real.log (2 * x + 17) - Real.log (2 * x + 15)) := by
    have h := mul_le_mul_of_nonneg_left a1 hxh
    have e : (x + 1 / 2) * ((2 * x + 17 - (2 * x + 15)) / (2 * x + 17))
        = 1 - 16 / (2 * x + 17) := by
      field_simp
      ring
    have h' : 16 / (2 * x + 17) ≤ 8 / (x + 1) := by
      rw [div_le_div_iff₀ (by positivity) (by positivity)]
      linarith
    linarith
  -- the second term
  have t3 : Real.log (2 * x + 17) - Real.log (x + 9) - Real.log 2 ≤ 0 := by
    have h : (2 * x + 17 - 2 * (x + 9)) / (2 * (x + 9)) ≤ 0 := by
      apply div_nonpos_of_nonpos_of_nonneg <;> linarith
    linarith
  have t4 : -(1 / (x + 1)) ≤ Real.log (2 * x + 17) - Real.log (x + 9) - Real.log 2 := by
    have h : -(1 / (x + 1)) ≤ (2 * x + 17 - 2 * (x + 9)) / (2 * x + 17) := by
      rw [neg_le, ← neg_div, div_le_div_iff₀ (by positivity) (by positivity)]
      nlinarith
    linarith
  -- the third term
  have t5 : 0 ≤ Real.log (lanczosP (x + 1)) - Real.log (lanczosP x) := by
    have h : 0 ≤ (lanczosP (x + 1) - lanczosP x) / lanczosP (x + 1) :=
      div_nonneg (by linarith [hP.1]) p1.le
    linarith
  have t6 : Real.log (lanczosP (x + 1)) - Real.log (lanczosP x) ≤ 8 / (x + 1) := by
    have h : (lanczosP (x + 1) - lanczosP x) / lanczosP x ≤ 8 / (x + 1) := by
      rw [div_le_div_iff₀ p0 hx1]
      linarith [hP.2]
    linarith
  have hpos : 0 ≤ 1 / (x + 1) := by positivity
  have e8 : 8 / (x + 1) = 8 * (1 / (x + 1)) := by ring
  have e9 : 9 / (x + 1) = 9 * (1 / (x + 1)) := by ring
  rw [e8] at t2 t6
  rw [e9, abs_le]
  constructor <;> linarith

/-- The value of `lgamma` at `x + 1` for `x ≥ 0`. -/
theorem lgamma_add_one (x : ℝ) (hx : 0 ≤ x) :
    lgamma (x + 1) = (x + 1 / 2) * (Real.log (2 * x + 15) - Real.log 2 - 1) + LogRootTwoPi_
      + Real.log (lanczosLoop x 1 (lanczos_7_c 0)) - 7 := by
  rw [lgamma_unfold]
  have e0 : x + 1 - 1 = x := by ring
  have e1 : x + 0.5 = x + 1 / 2 := by norm_num
  have e2 : x + 7.5 = (2 * x + 15) / 2 := by
    norm_num
    ring
  rw [e0, e1, e2, Real.log_div (by positivity) (Real.exp_pos 1).ne', Real.log_exp,
    Real.log_div (by positivity) (by norm_num)]
  ring

/-- The step error of `lgamma` against the functional equation of the log-gamma function,
in closed form. -/
theorem stepErr_eq (x : ℝ) (hx : 0 ≤ x) :
    lgamma (x + 2) - lgamma (x + 1) - Real.log (x + 1)
      = (x + 1 / 2) * (Real.log (2 * x + 17) - Real.log (2 * x + 15))
        + Real.log (2 * x + 17) - Real.log (x + 9) - Real.log 2 - 1
        + Real.log (lanczosP (x + 1)) - Real.log (lanczosP x) := by
  have e : x + 2 = x + 1 + 1 := by ring
  have hx1 : 0 ≤ x + 1 := by linarith
  rw [e, lgamma_add_one (x + 1) hx1, lgamma_add_one x hx]
  have hA0 := lanczosLoop_pos x hx
  have hA1 := lanczosLoop_pos (x + 1) hx1
  have p0 := lanczosP_pos x hx
  have p1 := lanczosP_pos (x + 1) hx1
  have hlog : Real.log (lanczosLoop (x + 1) 1 (lanczos_7_c 0))
      - Real.log (lanczosLoop x 1 (lanczos_7_c 0))
      = Real.log (lanczosP (x + 1)) + Real.log (x + 1) - (Real.log (lanczosP x)
        + Real.log (x + 9)) := by
    rw [← Real.log_div hA1.ne' hA0.ne', lanczosLoop_succ_div x hx,
      Real.log_div (by positivity) (by positivity), Real.log_mul p1.ne' (by positivity),
      Real.log_mul p0.ne' (by positivity)]
  have e17 : 2 * (x + 1) + 15 = 2 * x + 17 := by ring
  rw [e17]
  linear_combination hlog

/-- The step error of `lgamma` at `x ≥ 0` is at most `4e-11 / (x + 2)^2`. -/
theorem stepErr_abs_le (x : ℝ) (hx : 0 ≤ x) :
    |lgamma (x + 2) - lgamma (x + 1) - Real.log (x + 1)| ≤ 4e-11 / (x + 2) ^ 2 := by
  rw [stepErr_eq x hx]
  have h := abs_le_of_deriv2_abs_le _ _ _ (100000000000 * 9)
    (fun y hy => (stepErr_hasDerivAt y hy).const_mul (100000000000 : ℝ))
    (fun y hy => (stepErr1_hasDerivAt y hy).const_mul (100000000000 : ℝ))
    (fun y hy => by
      have h1 := stepErr2_le y hy
      have h2 := neg_stepErr2_le y hy
      rw [abs_le]
      constructor <;> linarith)
    (fun y hy => by
      have h1 := stepErr_decay y hy
      rw [abs_mul, abs_of_pos (by norm_num : (0 : ℝ) < 100000000000), mul_div_assoc]
      exact mul_le_mul_of_nonneg_left h1 (by norm_num)) x hx
  rw [abs_mul, abs_of_pos (by norm_num : (0 : ℝ) < 100000000000)] at h
  have e : (4e-11 : ℝ) / (x + 2) ^ 2 = (4 / (x + 2) ^ 2) / 100000000000 := by
    norm_num
    ring
  rw [e, le_div_iff₀ (by norm_num)]
  linarith

/-- The distance of `lgamma(n + 1)` from `log (n!)`, for every natural number `n`. -/
theorem lgamma_succ_near (n : ℕ) :
    |lgamma ((n : ℝ) + 1) - Real.log (n.factorial : ℝ)|
      ≤ 1e-19 + 4e-11 * (1 - 1 / ((n : ℝ) + 1)) := by
  induction n with
  | zero =>
    have h := lgamma_one_bounds
    have e : ((0 : ℕ) : ℝ) + 1 = 1 := by norm_num
    rw [e]
    simp only [Nat.factorial_zero, Nat.cast_one, Real.log_one, sub_zero]
    rw [abs_of_pos h.1]
    norm_num
    exact h.2.trans (by norm_num)
  | succ n ih =>
    have hn : (0 : ℝ) ≤ (n : ℝ) := Nat.cast_nonneg n
    have hs := stepErr_abs_le (n : ℝ) hn
    have hf : Real.log ((n + 1).factorial : ℝ)
        = Real.log ((n : ℝ) + 1) + Real.log (n.factorial : ℝ) := by
      rw [Nat.factorial_succ]
      push_cast
      rw [Real.log_mul (by positivity) (by positivity)]
    have e : ((n + 1 : ℕ) : ℝ) + 1 = (n : ℝ) + 2 := by
      push_cast
      ring
    have hq : (4e-11 : ℝ) / ((n : ℝ) + 2) ^ 2
        ≤ 4e-11 * (1 / ((n : ℝ) + 1) - 1 / ((n : ℝ) + 2)) := by
      rw [div_eq_mul_one_div]
      apply mul_le_mul_of_nonneg_left _ (by norm_num)
      rw [div_sub_div _ _ (by positivity) (by positivity),
        div_le_div_iff₀ (by positivity) (by positivity)]
      nlinarith
    rw [e, hf]
    have ha := abs_le.1 ih
    have hb := abs_le.1 (hs.trans hq)
    rw [abs_le]
    norm_num at ha hb ⊢
    constructor <;> linarith [ha.1, ha.2, hb.1, hb.2]

/-! ## Domain of `lgamma` -/

/-- The denominators of the loop of `lgamma` are `x + 1, ..., x + 8`. -/
theorem lanczosDenoms_real (x : ℝ) :
    lanczosDenoms x 1 [] = [x + 1, x + 2, x + 3, x + 4, x + 5, x + 6, x + 7, x + 8] := by
  simp [lanczosDenoms]

/-- For `x > -1` every denominator of the loop of `lgamma` is positive. -/
theorem lanczosDenoms_pos (x : ℝ) (hx : -1 < x) : ∀ d ∈ lanczosDenoms x 1 [], 0 < d := by
  intro d hd
  rw [lanczosDenoms_real] at hd
  simp only [List.mem_cons, List.mem_singleton, List.not_mem_nil, or_false] at hd
  rcases hd with h | h | h | h | h | h | h | h <;> rw [h] <;> linarith

/-- The Lanczos sum is positive for every `x > -1`. -/
theorem lanczosLoop_pos_of_neg_one_lt (x : ℝ) (hx : -1 < x) :
    0 < lanczosLoop x 1 (lanczos_7_c 0) := by
  obtain ⟨z, hz, rfl⟩ : ∃ z : ℝ, 0 < z ∧ x = z - 1 := ⟨x + 1, by linarith, by ring⟩
  have e1 : z - 1 + 1 = z := by ring
  have e2 : z - 1 + 2 = z + 1 := by ring
  have e3 : z - 1 + 3 = z + 2 := by ring
  have e4 : z - 1 + 4 = z + 3 := by ring
  have e5 : z - 1 + 5 = z + 4 := by ring
  have e6 : z - 1 + 6 = z + 5 := by ring
  have e7 : z - 1 + 7 = z + 6 := by ring
  have e8 : z - 1 + 8 = z + 7 := by ring
  have h : lanczosLoop (z - 1) 1 (lanczos_7_c 0)
      = (340966265533430089677772631983785576000 + 416238789122556625187924720207574838320 * z
          + 222288041949364065079966865017525397304 * z ^ 2
          + 67828970150233346261595287787427802196 * z ^ 3
          + 12934725852873034937705537178422101582 * z ^ 4
          + 1578488045669741484930332534313543680 * z ^ 5
          + 120383420138864274185862652341712116 * z ^ 6
          + 5245833333334342221407283655316284 * z ^ 7
          + 99999999999980993227684700473478 * z ^ 8)
        / (10 ^ 32 * (z * (z + 1) * (z + 2) * (z + 3) * (z + 4) * (z + 5) * (z + 6)
            * (z + 7))) := by
    rw [lanczosLoop_values, e1, e2, e3, e4, e5, e6, e7, e8]
    norm_num
    field_simp
    ring
  rw [h]
  positivity

/-! ## The shifted argument in double precision -/

/-- The rounding `roundBinary64` with the binary exponent `e` of `q` made explicit. -/
theorem roundBinary64_eq (q : ℚ) (e : ℤ) (h1 : (2 : ℚ) ^ e ≤ |q|) (h2 : |q| < 2 ^ (e + 1)) :
    roundBinary64 q = (roundHalfEven (q / 2 ^ (e - 52)) : ℚ) * 2 ^ (e - 52) := by
  have hpos : 0 < |q| := lt_of_lt_of_le (by positivity) h1
  have hq : q ≠ 0 := abs_pos.1 hpos
  have hlog : Int.log 2 |q| = e := by
    apply le_antisymm
    · have h := (Int.lt_zpow_iff_log_lt (by norm_num : 1 < 2) hpos).1
        (by exact_mod_cast h2 : |q| < ((2 : ℕ) : ℚ) ^ (e + 1))
      omega
    · exact (Int.zpow_le_iff_le_log (by norm_num : 1 < 2) hpos).1 (by exact_mod_cast h1)
  rw [roundBinary64, if_neg hq, hlog]

/-- A rational less than half above an integer rounds to that integer. -/
theorem roundHalfEven_eq (m : ℚ) (z : ℤ) (h0 : (z : ℚ) ≤ m) (h1 : m < z + 1 / 2) :
    roundHalfEven m = z := by
  have hf : ⌊m⌋ = z := Int.floor_eq_iff.2 ⟨h0, by linarith⟩
  rw [roundHalfEven, hf, if_pos (by linarith)]

/-- A rational on the binary64 grid is its own rounding. -/
theorem roundBinary64_of_grid (q : ℚ) (e z : ℤ) (h1 : (2 : ℚ) ^ e ≤ |q|)
    (h2 : |q| < 2 ^ (e + 1)) (hz : q = z * 2 ^ (e - 52)) : roundBinary64 q = q := by
  have hp : (0 : ℚ) < 2 ^ (e - 52) := by positivity
  have hm : q / 2 ^ (e - 52) = z := by
    rw [hz, mul_div_assoc, div_self hp.ne', mul_one]
  rw [roundBinary64_eq q e h1 h2, hm, roundHalfEven_eq z z le_rfl (by linarith), ← hz]

/-- The rounding of a positive rational is positive. -/
theorem roundBinary64_pos (q : ℚ) (hq : 0 < q) : 0 < roundBinary64 q := by
  have habs : |q| = q := abs_of_pos hq
  have hp : (0 : ℚ) < 2 ^ (Int.log 2 |q| - 52) := by positivity
  have hl : ((2 : ℕ) : ℚ) ^ Int.log 2 |q| ≤ |q| :=
    Int.zpow_log_le_self (by norm_num) (by rw [habs]; exact hq)
  have hm : (1 : ℚ) ≤ q / 2 ^ (Int.log 2 |q| - 52) := by
    rw [le_div_iff₀ hp, one_mul]
    have h52 : (2 : ℚ) ^ (Int.log 2 |q| - 52) ≤ 2 ^ Int.log 2 |q| :=
      zpow_le_zpow_right₀ (by norm_num) (by omega)
    have hl' : (2 : ℚ) ^ Int.log 2 |q| ≤ q := by
      rw [habs] at hl ⊢
      exact_mod_cast hl
    exact h52.trans hl'
  have hfl : (1 : ℤ) ≤ ⌊q / 2 ^ (Int.log 2 |q| - 52)⌋ := Int.le_floor.2 (by exact_mod_cast hm)
  have hr : (1 : ℤ) ≤ roundHalfEven (q / 2 ^ (Int.log 2 |q| - 52)) := by
    unfold roundHalfEven
    split_ifs <;> omega
  rw [roundBinary64, if_neg hq.ne']
  have hr' : (0 : ℚ) < (roundHalfEven (q / 2 ^ (Int.log 2 |q| - 52)) : ℚ) := by
    exact_mod_cast lt_of_lt_of_le zero_lt_one hr
  exact mul_pos hr' hp

/-- The integers `1, ..., 8` convert to double precision exactly. -/
theorem binary64_intCast_val (k : ℕ) (h1 : 1 ≤ k) (h8 : k ≤ 8) :
    (((k : Int) : Binary64)).val = k := by
  show roundBinary64 (((k : ℤ) : ℚ)) = k
  interval_cases k
  · exact roundBinary64_of_grid _ 0 (2 ^ 52) (by norm_num) (by norm_num) (by norm_num)
  · exact roundBinary64_of_grid _ 1 (2 ^ 52) (by norm_num) (by norm_num) (by norm_num)
  · exact roundBinary64_of_grid _ 1 (3 * 2 ^ 51) (by norm_num) (by norm_num) (by norm_num)
  · exact roundBinary64_of_grid _ 2 (2 ^ 52) (by norm_num) (by norm_num) (by norm_num)
  · exact roundBinary64_of_grid _ 2 (5 * 2 ^ 50) (by norm_num) (by norm_num) (by norm_num)
  · exact roundBinary64_of_grid _ 2 (3 * 2 ^ 51) (by norm_num) (by norm_num) (by norm_num)
  · exact roundBinary64_of_grid _ 2 (7 * 2 ^ 50) (by norm_num) (by norm_num) (by norm_num)
  · exact roundBinary64_of_grid _ 3 (2 ^ 52) (by norm_num) (by norm_num) (by norm_num)

/-- The denominators of the loop of `lgamma` in double precision. -/
theorem lanczosDenoms_binary64 (x : Binary64) :
    (lanczosDenoms x 1 []).map Binary64.val
      = [roundBinary64 (x.val + 1), roundBinary64 (x.val + 2), roundBinary64 (x.val + 3),
          roundBinary64 (x.val + 4), roundBinary64 (x.val + 5), roundBinary64 (x.val + 6),
          roundBinary64 (x.val + 7), roundBinary64 (x.val + 8)] := by
  have h : ∀ k : ℕ, 1 ≤ k → k ≤ 8 →
      (x + ((k : Int) : Binary64)).val = roundBinary64 (x.val + k) := by
    intro k h1 h8
    show roundBinary64 (x.val + (((k : Int) : Binary64)).val) = _
    rw [binary64_intCast_val k h1 h8]
  have h1 := h 1 (by norm_num) (by norm_num)
  have h2 := h 2 (by norm_num) (by norm_num)
  have h3 := h 3 (by norm_num) (by norm_num)
  have h4 := h 4 (by norm_num) (by norm_num)
  have h5 := h 5 (by norm_num) (by norm_num)
  have h6 := h 6 (by norm_num) (by norm_num)
  have h7 := h 7 (by norm_num) (by norm_num)
  have h8 := h 8 (by norm_num) (by norm_num)
  simp only [Nat.cast_one, Nat.cast_ofNat] at h1 h2 h3 h4 h5 h6 h7 h8
  simp [lanczosDenoms, h1, h2, h3, h4, h5, h6, h7, h8]

/-- The shifted argument of the double `2^-60` is `-1`. -/
theorem binary64_shift_small :
    roundBinary64 (2 ^ (-60 : ℤ)) = 2 ^ (-60 : ℤ)
      ∧ ((⟨2 ^ (-60 : ℤ)⟩ : Binary64) - 1.0).val = -1 := by
  constructor
  · have ha : |(2 : ℚ) ^ (-60 : ℤ)| = 2 ^ (-60 : ℤ) := abs_of_pos (by positivity)
    exact roundBinary64_of_grid _ (-60) (2 ^ 52) (by rw [ha]) (by rw [ha]; norm_num)
      (by norm_num)
  · have h1 : ((1.0 : Binary64)).val = 1 := by
      show roundBinary64 (OfScientific.ofScientific 10 true 1) = 1
      have e : (OfScientific.ofScientific 10 true 1 : ℚ) = 1 := by norm_num
      rw [e]
      exact roundBinary64_of_grid _ 0 (2 ^ 52) (by norm_num) (by norm_num) (by norm_num)
    show roundBinary64 ((2 : ℚ) ^ (-60 : ℤ) - ((1.0 : Binary64)).val) = -1
    have ha : |(2 : ℚ) ^ (-60 : ℤ) - 1| = 1 - 2 ^ (-60 : ℤ) := by
      rw [abs_of_neg (by norm_num)]
      ring
    rw [h1, roundBinary64_eq _ (-1) (by rw [ha]; norm_num) (by rw [ha]; norm_num),
      roundHalfEven_eq _ (-2 ^ 53) (by norm_num) (by norm_num)]
    norm_num

/-! ## The claims -/

/-- C1: for every `x`, `mu`, `var` and every flag, `dnbinom2(x, mu, var, give_log)` is
`dnbinom(x, mu*p/(1-p), p, give_log)` with `p = mu/var`; the flag is passed unchanged. -/
theorem dnbinom2_eq_dnbinom (x mu var : ℝ) (give_log : Int) :
    dnbinom2 x mu var give_log
      = dnbinom x (mu * (mu / var) / (1 - mu / var)) (mu / var) give_log := by
  simp [dnbinom2]

/-- C2: for each of the five densities and every non-zero flag `g`, the result with flag
`g` is the log-density, the result with flag `0` is its exponential, so that
`exp (f ... g) = f ... 0`, and flag `g` gives the same result as flag `1`. -/
theorem log_linear_consistency (g : Int) (hg : g ≠ 0) (x a b : ℝ) :
    (dnbinom x a b g
        = lgamma (x + a) - lgamma a - lgamma (x + 1) + a * Real.log b + x * Real.log (1 - b)
      ∧ dnbinom x a b 0 = Real.exp (lgamma (x + a) - lgamma a - lgamma (x + 1)
          + a * Real.log b + x * Real.log (1 - b))
      ∧ Real.exp (dnbinom x a b g) = dnbinom x a b 0
      ∧ dnbinom x a b g = dnbinom x a b 1)
    ∧ (dnbinom2 x a b g
        = lgamma (x + a * (a / b) / (1 - a / b)) - lgamma (a * (a / b) / (1 - a / b))
          - lgamma (x + 1) + a * (a / b) / (1 - a / b) * Real.log (a / b)
          + x * Real.log (1 - a / b)
      ∧ dnbinom2 x a b 0
        = Real.exp (lgamma (x + a * (a / b) / (1 - a / b)) - lgamma (a * (a / b) / (1 - a / b))
          - lgamma (x + 1) + a * (a / b) / (1 - a / b) * Real.log (a / b)
          + x * Real.log (1 - a / b))
      ∧ Real.exp (dnbinom2 x a b g) = dnbinom2 x a b 0
      ∧ dnbinom2 x a b g = dnbinom2 x a b 1)
    ∧ (dpois x a g = -a + x * Real.log a - lgamma (x + 1)
      ∧ dpois x a 0 = Real.exp (-a + x * Real.log a - lgamma (x + 1))
      ∧ Real.exp (dpois x a g) = dpois x a 0
      ∧ dpois x a g = dpois x a 1)
    ∧ (dgamma x a b g = -lgamma a + (a - 1) * Real.log x - x / b - a * Real.log b
      ∧ dgamma x a b 0 = Real.exp (-lgamma a + (a - 1) * Real.log x - x / b - a * Real.log b)
      ∧ Real.exp (dgamma x a b g) = dgamma x a b 0
      ∧ dgamma x a b g = dgamma x a b 1)
    ∧ (dlgamma x a b g = -lgamma a - a * Real.log b - Real.exp x / b + a * x
      ∧ dlgamma x a b 0 = Real.exp (-lgamma a - a * Real.log b - Real.exp x / b + a * x)
      ∧ Real.exp (dlgamma x a b g) = dlgamma x a b 0
      ∧ dlgamma x a b g = dlgamma x a b 1) := by
  have h1 : (1.0 : ℝ) = 1 := by norm_num
  refine ⟨?_, ?_, ?_, ?_, ?_⟩ <;>
    simp [dnbinom2, dnbinom, dpois, dgamma, dlgamma, hg, h1]

/-- Witness of `log_linear_consistency` at the flag `2`. -/
theorem log_linear_consistency_witness :
    (2 : Int) ≠ 0 ∧ Real.exp (dpois (3 : ℝ) 2 2) = dpois (3 : ℝ) 2 0
      ∧ dpois (3 : ℝ) 2 2 = dpois (3 : ℝ) 2 1 :=
  ⟨by decide, (log_linear_consistency 2 (by decide) 3 2 0).2.2.1.2.2.1,
    (log_linear_consistency 2 (by decide) 3 2 0).2.2.1.2.2.2⟩

/-- C3: for every `x`, size `n` and prob `p`, `dnbinom(x, n, p, 1)` is
`lgamma(x+n) - lgamma(n) - lgamma(x+1) + n*log(p) + x*log(1-p)`; the function is total,
no input is rejected or changed. -/
theorem dnbinom_log_formula (x n p : ℝ) :
    dnbinom x n p 1
      = lgamma (x + n) - lgamma n - lgamma (x + 1) + n * Real.log p + x * Real.log (1 - p) := by
  simp [dnbinom]

/-- C4: for every `y`, with `x = y - 1`, `lgamma(y)` is
`(x + 0.5) * log((x + 7.5)/e) + LogRootTwoPi_ + log(Ag) - 7`, where
`Ag = c_0 + sum over k = 1..8 of c_k/(x + k)` runs over the nine table entries, each index
`0..8` once; the constant `LogRootTwoPi_` is `log (sqrt (2 π))` up to `1e-19`. -/
theorem lgamma_formula (y : ℝ) :
    lgamma y
        = (y - 1 + 0.5) * Real.log ((y - 1 + 7.5) / Real.exp 1) + LogRootTwoPi_
          + Real.log (lanczos_7_c 0
              + ∑ k ∈ Finset.Icc (1 : Fin 9) 8, lanczos_7_c k / (y - 1 + ((k : ℕ) : ℝ)))
          - 7
      ∧ |(LogRootTwoPi_ : ℝ) - Real.log (Real.sqrt (2 * Real.pi))| ≤ 1e-19 := by
  refine ⟨?_, LogRootTwoPi_near⟩
  rw [lgamma_unfold, lanczosLoop_real]
  ring

/-- C5 as stated fails: at `x = e`, `shape = scale = 1` the left side exceeds the right
side by `2`. -/
theorem dlgamma_add_log_ne_dgamma :
    0 < Real.exp 1
      ∧ dlgamma (Real.log (Real.exp 1)) 1 1 1 + Real.log (Real.exp 1)
        ≠ dgamma (Real.exp 1) 1 1 1 := by
  refine ⟨Real.exp_pos 1, ?_⟩
  intro h2
  simp [dlgamma, dgamma] at h2
  linarith

/-- C5, amended: for every `x > 0` and every shape and scale,
`dlgamma(log(x), shape, scale, 1) - log(x)` equals `dgamma(x, shape, scale, 1)`. -/
theorem dlgamma_sub_log_eq_dgamma (x shape scale : ℝ) (hx : 0 < x) :
    dlgamma (Real.log x) shape scale 1 - Real.log x = dgamma x shape scale 1 := by
  have h1 : (1.0 : ℝ) = 1 := by norm_num
  simp only [dlgamma, dgamma, log_real, exp_real, Real.exp_log hx, h1]
  simp
  ring

/-- Witness of `dlgamma_sub_log_eq_dgamma` at `x = 2`, `shape = 3`, `scale = 5`. -/
theorem dlgamma_sub_log_eq_dgamma_witness :
    (0 : ℝ) < 2 ∧ dlgamma (Real.log 2) 3 5 1 - Real.log 2 = dgamma 2 3 5 1 :=
  ⟨by norm_num, dlgamma_sub_log_eq_dgamma 2 3 5 (by norm_num)⟩

/-- C6: for every positive integer `y`, `lgamma(y)` is within `1e-10` of `log ((y-1)!)`,
and `exp(lgamma(y))` equals `(y-1)!` up to a relative error of `1e-10`. -/
theorem lgamma_nat_factorial (y : ℕ) (hy : 1 ≤ y) :
    |lgamma (y : ℝ) - Real.log ((y - 1).factorial : ℝ)| ≤ 1e-10
      ∧ |Real.exp (lgamma (y : ℝ)) - ((y - 1).factorial : ℝ)|
          ≤ 1e-10 * ((y - 1).factorial : ℝ) := by
  obtain ⟨n, rfl⟩ : ∃ n, y = n + 1 := ⟨y - 1, by omega⟩
  have h := lgamma_succ_near n
  have e : ((n + 1 : ℕ) : ℝ) = (n : ℝ) + 1 := by push_cast; ring
  have e2 : n + 1 - 1 = n := by omega
  rw [e, e2]
  have hpos : (0 : ℝ) < (n.factorial : ℝ) := by exact_mod_cast n.factorial_pos
  have hn : (0 : ℝ) < (n : ℝ) + 1 := by positivity
  have hle : (1e-19 : ℝ) + 4e-11 * (1 - 1 / ((n : ℝ) + 1)) ≤ 5e-11 := by
    have h1 : (0 : ℝ) ≤ ((n : ℝ) + 1)⁻¹ := by positivity
    norm_num
    linarith
  have h5 := h.trans hle
  refine ⟨h5.trans (by norm_num), ?_⟩
  have h6 := abs_exp_sub_le _ _ 5e-11 hpos (by norm_num) h5
  refine h6.trans ?_
  have e3 : (2 : ℝ) * (n.factorial : ℝ) * 5e-11 = 1e-10 * (n.factorial : ℝ) := by
    norm_num
    ring
  rw [e3]

/-- Witness of `lgamma_nat_factorial` at `y = 6`: `lgamma(6)` is within `1e-10` of
`log 120`. -/
theorem lgamma_nat_factorial_witness :
    1 ≤ 6 ∧ |lgamma (6 : ℝ) - Real.log 120| ≤ 1e-10 := by
  refine ⟨by norm_num, ?_⟩
  have h := (lgamma_nat_factorial 6 (by norm_num)).1
  norm_num [Nat.factorial] at h
  norm_num
  exact h

/-- C7: `lgamma(0.5)` is within `1e-7` of `log (sqrt π)`, and `log (sqrt π)` is within
`1e-7` of `0.5723649`. -/
theorem lgamma_half_log_sqrt_pi :
    |lgamma (0.5 : ℝ) - Real.log (Real.sqrt Real.pi)| ≤ 1e-7
      ∧ |Real.log (Real.sqrt Real.pi) - 0.5723649| ≤ 1e-7 :=
  ⟨lgamma_half_near, log_sqrt_pi_near⟩

/-- C9 as stated fails: `dnbinom(2, 5, 0.5, 0)` is not within `1e-6` of `0.1640625`. -/
theorem dnbinom_two_five_half_not_near :
    ¬ |dnbinom (2 : ℝ) 5 0.5 0 - 0.1640625| ≤ 1e-6 := by
  intro h
  have h1 := abs_le.1 dnbinom_two_five_half
  have h2 := abs_le.1 h
  norm_num at h1 h2
  linarith [h1.2, h2.1]

/-- C9, amended: `dnbinom(2, 5, 0.5, 0)` is within `1e-6` of `0.1171875`. -/
theorem dnbinom_two_five_half_near : |dnbinom (2 : ℝ) 5 0.5 0 - 0.1171875| ≤ 1e-6 := by
  have h1 := abs_le.1 dnbinom_two_five_half
  rw [abs_le]
  norm_num at h1 ⊢
  constructor <;> linarith [h1.1, h1.2]

/-- C10: `dpois(3, 2.0, 0)` is within `1e-6` of `0.180447`, and it is the Poisson
probability `exp(-2) * 2^3 / 3!` up to `1e-9`. -/
theorem dpois_three_two :
    |dpois (3 : ℝ) 2.0 0 - 0.180447| ≤ 1e-6
      ∧ |dpois (3 : ℝ) 2.0 0 - Real.exp (-2) * 2 ^ 3 / (Nat.factorial 3 : ℝ)| ≤ 1e-9 := by
  have e2 : (2.0 : ℝ) = 2 := by norm_num
  have e4 : (3 : ℝ) + 1 = 4 := by norm_num
  have ef : ((Nat.factorial 3 : ℕ) : ℝ) = 6 := by norm_num [Nat.factorial]
  rw [dpois_linear, e2, e4, ef]
  have hb := exp_two_bounds
  have hq : Real.exp (-2) * 2 ^ 3 / 6 = 4 / 3 / Real.exp 2 := by
    rw [Real.exp_neg]
    field_simp
    ring
  have hqpos : (0 : ℝ) < 4 / 3 / Real.exp 2 := by positivity
  have hq1 : 4 / 3 / Real.exp 2 ≤ 0.1804479 := by
    rw [div_le_iff₀ (Real.exp_pos 2)]
    norm_num at hb ⊢
    linarith [hb.1]
  have hq2 : (0.1804461 : ℝ) ≤ 4 / 3 / Real.exp 2 := by
    rw [le_div_iff₀ (Real.exp_pos 2)]
    norm_num at hb ⊢
    linarith [hb.2]
  have hlog : Real.log (4 / 3 / Real.exp 2) = -2 + 3 * Real.log 2 - Real.log 6 := by
    have e : (4 / 3 : ℝ) = 2 ^ 3 / 6 := by norm_num
    rw [Real.log_div (by norm_num) (Real.exp_pos 2).ne', Real.log_exp, e,
      Real.log_div (by norm_num) (by norm_num), Real.log_pow]
    push_cast
    ring
  have h4 := lgamma_four_near
  have hd : |(-2 + 3 * Real.log 2 - lgamma (4 : ℝ)) - Real.log (4 / 3 / Real.exp 2)|
      ≤ 1e-10 := by
    rw [hlog]
    have e : (-2 + 3 * Real.log 2 - lgamma (4 : ℝ)) - (-2 + 3 * Real.log 2 - Real.log 6)
        = -(lgamma (4 : ℝ) - Real.log 6) := by ring
    rw [e, abs_neg]
    exact h4
  have h := abs_exp_sub_le _ (4 / 3 / Real.exp 2) 1e-10 hqpos (by norm_num) hd
  have h9 : 2 * (4 / 3 / Real.exp 2) * (1e-10 : ℝ) ≤ 1e-9 := by
    norm_num at hq1 ⊢
    linarith
  have hmain := abs_le.1 (h.trans h9)
  rw [hq]
  refine ⟨?_, h.trans h9⟩
  rw [abs_le]
  norm_num at hmain hq1 hq2 ⊢
  constructor <;> linarith [hmain.1, hmain.2]

/-- C11: for `var > mu > 0` the parameters `p = mu/var` and `n = mu*p/(1-p)` that
`dnbinom2` passes to `dnbinom` satisfy `0 < p < 1` and `n > 0`, no division is by zero,
and `n*(1-p)/p = mu`, `n*(1-p)/p^2 = var`. -/
theorem dnbinom2_parameters (x mu var : ℝ) (g : Int) (hmu : 0 < mu) (hvar : mu < var) :
    dnbinom2 x mu var g = dnbinom x (mu * (mu / var) / (1 - mu / var)) (mu / var) g
      ∧ var ≠ 0 ∧ 1 - mu / var ≠ 0
      ∧ 0 < mu / var ∧ mu / var < 1 ∧ 0 < mu * (mu / var) / (1 - mu / var)
      ∧ mu * (mu / var) / (1 - mu / var) * (1 - mu / var) / (mu / var) = mu
      ∧ mu * (mu / var) / (1 - mu / var) * (1 - mu / var) / (mu / var) ^ 2 = var := by
  have hv : 0 < var := hmu.trans hvar
  have hp : 0 < mu / var := div_pos hmu hv
  have hp1 : mu / var < 1 := (div_lt_one hv).2 hvar
  have hq : 0 < 1 - mu / var := by linarith
  have hd : var - mu ≠ 0 := by linarith
  refine ⟨by simp [dnbinom2], hv.ne', hq.ne', hp, hp1, by positivity, ?_, ?_⟩
  · field_simp
  · field_simp
    ring

/-- Witness of `dnbinom2_parameters` at `mu = 2`, `var = 4`. -/
theorem dnbinom2_parameters_witness :
    (0 : ℝ) < 2 ∧ (2 : ℝ) < 4
      ∧ dnbinom2 (3 : ℝ) 2 4 1 = dnbinom 3 (2 * (2 / 4) / (1 - 2 / 4)) (2 / 4) 1
      ∧ (2 : ℝ) * (2 / 4) / (1 - 2 / 4) * (1 - 2 / 4) / (2 / 4) ^ 2 = 4 :=
  ⟨by norm_num, by norm_num, (dnbinom2_parameters 3 2 4 1 (by norm_num) (by norm_num)).1,
    (dnbinom2_parameters 3 2 4 1 (by norm_num) (by norm_num)).2.2.2.2.2.2.2⟩

/-- C12: for `shape = 2`, `scale = 3` the integral of `dgamma(y, 2, 3, 0)` over `y > 0` is
`exp(-lgamma(2))`, which is within `1e-6` of `1`. -/
theorem dgamma_two_three_integral :
    ∫ y in Set.Ioi (0 : ℝ), dgamma y 2 3 0 = Real.exp (-lgamma 2)
      ∧ |(∫ y in Set.Ioi (0 : ℝ), dgamma y 2 3 0) - 1| ≤ 1e-6 := by
  have h1 : (1.0 : ℝ) = 1 := by norm_num
  have hfun : Set.EqOn (fun y : ℝ => dgamma y 2 3 0)
      (fun y : ℝ => Real.exp (-lgamma 2) / 9 * (y ^ ((2 : ℝ) - 1) * Real.exp (-(1 / 3 * y))))
      (Set.Ioi 0) := by
    intro y hy
    have hy0 : (0 : ℝ) < y := hy
    have e : (2 : ℝ) - 1 = 1 := by norm_num
    have e9 : Real.exp (2 * Real.log 3) = 9 := by
      rw [mul_comm, Real.exp_mul, Real.exp_log (by norm_num)]
      norm_num
    simp only [dgamma, log_real, exp_real, h1, e, Real.rpow_one]
    simp only [ne_eq, not_true_eq_false, if_false]
    have e2 : -lgamma (2 : ℝ) + 1 * Real.log y - y / 3 - 2 * Real.log 3
        = (-lgamma (2 : ℝ)) + Real.log y + (-(1 / 3 * y)) - 2 * Real.log 3 := by ring
    rw [e2, Real.exp_sub, Real.exp_add, Real.exp_add, Real.exp_log hy0, e9]
    ring
  have hint : ∫ y in Set.Ioi (0 : ℝ), dgamma y 2 3 0 = Real.exp (-lgamma 2) := by
    rw [MeasureTheory.setIntegral_congr_fun measurableSet_Ioi hfun,
      MeasureTheory.integral_mul_left,
      Real.integral_rpow_mul_exp_neg_mul_Ioi (by norm_num) (by norm_num)]
    have hG : Real.Gamma 2 = 1 := by
      have h := Real.Gamma_nat_eq_factorial 1
      have e : (1 : ℝ) + 1 = 2 := by norm_num
      rw [Nat.factorial_one, Nat.cast_one, e] at h
      exact h
    rw [hG]
    have e : ((1 : ℝ) / (1 / 3)) ^ (2 : ℝ) = 9 := by
      rw [Real.rpow_two]
      norm_num
    rw [e]
    ring
  refine ⟨hint, ?_⟩
  rw [hint]
  have h2 := lgamma_succ_near 1
  have e : ((1 : ℕ) : ℝ) + 1 = 2 := by norm_num
  rw [e] at h2
  simp only [Nat.factorial_one, Nat.cast_one, Real.log_one, sub_zero] at h2
  have h3 : |(-lgamma (2 : ℝ)) - Real.log 1| ≤ 3e-11 := by
    rw [Real.log_one, sub_zero, abs_neg]
    refine h2.trans ?_
    norm_num
  have h4 := abs_exp_sub_le _ 1 3e-11 (by norm_num) (by norm_num) h3
  refine h4.trans ?_
  norm_num

/-- C13 as stated fails: at `y = -5` the shifted argument `x = y - 1 = -6` satisfies
`x > -7`, yet the loop divides by `x + 6 = 0`. -/
theorem lgamma_denominator_zero :
    (-5 : ℝ) - 1 > -7 ∧ (0 : ℝ) ∈ lanczosDenoms ((-5 : ℝ) - 1) 1 []
      ∧ ¬ ∀ d ∈ lanczosDenoms ((-5 : ℝ) - 1) 1 [], 0 < d := by
  have h0 : (0 : ℝ) ∈ lanczosDenoms ((-5 : ℝ) - 1) 1 [] := by
    rw [lanczosDenoms_real]
    norm_num
  refine ⟨by norm_num, h0, ?_⟩
  intro h
  exact lt_irrefl _ (h 0 h0)

/-- C13, amended: for every `y` with `y - 1 > -1` the shifted argument `x = y - 1` keeps
`x + k > 0` for every `k = 1..8`, the denominators of the loop, so no term of the Lanczos
sum hits a pole; a denominator vanishes exactly at `x = -1, -2, ..., -8`. -/
theorem lgamma_denominators_pos (y : ℝ) (hy : y - 1 > -1) :
    lanczosDenoms (y - 1) 1 []
        = [y - 1 + 1, y - 1 + 2, y - 1 + 3, y - 1 + 4, y - 1 + 5, y - 1 + 6, y - 1 + 7,
            y - 1 + 8]
      ∧ (∀ d ∈ lanczosDenoms (y - 1) 1 [], 0 < d)
      ∧ ∀ x : ℝ, (0 : ℝ) ∈ lanczosDenoms x 1 []
          ↔ x = -1 ∨ x = -2 ∨ x = -3 ∨ x = -4 ∨ x = -5 ∨ x = -6 ∨ x = -7 ∨ x = -8 := by
  refine ⟨lanczosDenoms_real _, lanczosDenoms_pos _ hy, ?_⟩
  intro x
  rw [lanczosDenoms_real]
  simp only [List.mem_cons, List.mem_singleton, List.not_mem_nil, or_false]
  constructor
  · rintro (h | h | h | h | h | h | h | h)
    · left; linarith
    · right; left; linarith
    · right; right; left; linarith
    · right; right; right; left; linarith
    · right; right; right; right; left; linarith
    · right; right; right; right; right; left; linarith
    · right; right; right; right; right; right; left; linarith
    · right; right; right; right; right; right; right; linarith
  · rintro (h | h | h | h | h | h | h | h)
    · left; linarith
    · right; left; linarith
    · right; right; left; linarith
    · right; right; right; left; linarith
    · right; right; right; right; left; linarith
    · right; right; right; right; right; left; linarith
    · right; right; right; right; right; right; left; linarith
    · right; right; right; right; right; right; right; linarith

/-- Witness of `lgamma_denominators_pos` at `y = 1/2`. -/
theorem lgamma_denominators_pos_witness :
    (1 / 2 : ℝ) - 1 > -1 ∧ ∀ d ∈ lanczosDenoms ((1 / 2 : ℝ) - 1) 1 [], 0 < d :=
  ⟨by norm_num, (lgamma_denominators_pos (1 / 2) (by norm_num)).2.1⟩

/-- C14: for every `x = y - 1` with `x + 7.5 > 0`, the value `term1 + (term2 - 7)` that
`lgamma` returns equals the formula of the code comment,
`(x+0.5)*log(x+7.5) - (x+7.5) + LogRootTwoPi_ + log(Ag)`. -/
theorem lgamma_comment_formula (y : ℝ) (h : 0 < y - 1 + 7.5) :
    lgamma y = (y - 1 + 0.5) * Real.log ((y - 1 + 7.5) / Real.exp 1)
        + (LogRootTwoPi_ + Real.log (lanczosLoop (y - 1) 1 (lanczos_7_c 0)) - 7)
      ∧ lgamma y = (y - 1 + 0.5) * Real.log (y - 1 + 7.5) - (y - 1 + 7.5) + LogRootTwoPi_
        + Real.log (lanczosLoop (y - 1) 1 (lanczos_7_c 0)) := by
  refine ⟨lgamma_unfold y, ?_⟩
  rw [lgamma_unfold, Real.log_div h.ne' (Real.exp_pos 1).ne', Real.log_exp]
  norm_num
  ring

/-- Witness of `lgamma_comment_formula` at `y = 1`. -/
theorem lgamma_comment_formula_witness :
    (0 : ℝ) < 1 - 1 + 7.5
      ∧ lgamma (1 : ℝ) = (1 - 1 + 0.5) * Real.log (1 - 1 + 7.5) - (1 - 1 + 7.5) + LogRootTwoPi_
        + Real.log (lanczosLoop (1 - 1) 1 (lanczos_7_c 0)) :=
  ⟨by norm_num, (lgamma_comment_formula 1 (by norm_num)).2⟩

/-- C15 as stated fails: at `x = -6.5`, where `x + 7.5 = 1`, the expression
`(x+0.5)*log((x+7.5)/e)` of `lgamma` is `6` and `(x+7.5)*log(x+7.5) - (x+7.5)` is `-1`. -/
theorem lgamma_term1_ne_spec_form :
    (0 : ℝ) < -6.5 + 7.5
      ∧ ((-6.5 : ℝ) + 0.5) * LogExp.log (((-6.5 : ℝ) + 7.5) / LogExp.M_E)
        ≠ ((-6.5 : ℝ) + 7.5) * Real.log (-6.5 + 7.5) - (-6.5 + 7.5) := by
  refine ⟨by norm_num, ?_⟩
  have e : (-6.5 : ℝ) + 7.5 = 1 := by norm_num
  rw [e, log_real, M_E_real, Real.log_div one_ne_zero (Real.exp_pos 1).ne', Real.log_one,
    Real.log_exp]
  norm_num

/-- C15, amended: for every `x = y - 1` with `x + 7.5 > 0`, the expression
`(x+0.5)*log((x+7.5)/e)` that `lgamma` computes is equal to
`(x+0.5)*log(x+7.5) - (x+0.5)`. -/
theorem lgamma_term1_eq (y : ℝ) (h : 0 < y - 1 + 7.5) :
    (y - 1 + 0.5) * LogExp.log ((y - 1 + 7.5) / LogExp.M_E)
        = (y - 1 + 0.5) * Real.log (y - 1 + 7.5) - (y - 1 + 0.5)
      ∧ lgamma y = (y - 1 + 0.5) * Real.log (y - 1 + 7.5) - (y - 1 + 0.5)
        + (LogRootTwoPi_ + Real.log (lanczosLoop (y - 1) 1 (lanczos_7_c 0)) - 7) := by
  have e : (y - 1 + 0.5) * Real.log ((y - 1 + 7.5) / Real.exp 1)
      = (y - 1 + 0.5) * Real.log (y - 1 + 7.5) - (y - 1 + 0.5) := by
    rw [Real.log_div h.ne' (Real.exp_pos 1).ne', Real.log_exp]
    ring
  refine ⟨by rw [log_real, M_E_real, e], ?_⟩
  rw [lgamma_unfold, e]

/-- Witness of `lgamma_term1_eq` at `y = 1`. -/
theorem lgamma_term1_eq_witness :
    (0 : ℝ) < 1 - 1 + 7.5
      ∧ ((1 : ℝ) - 1 + 0.5) * LogExp.log (((1 : ℝ) - 1 + 7.5) / LogExp.M_E)
        = ((1 : ℝ) - 1 + 0.5) * Real.log (1 - 1 + 7.5) - (1 - 1 + 0.5) :=
  ⟨by norm_num, (lgamma_term1_eq 1 (by norm_num)).1⟩

/-- C16 as stated fails: for the double `y = 2^-60 > 0` the shifted argument
`x = y - 1.0` that `lgamma` computes rounds to `-1`, and the first denominator `x + 1` of
the loop is `0`. -/
theorem lgamma_shift_hits_pole :
    (0 : ℚ) < (⟨2 ^ (-60 : ℤ)⟩ : Binary64).val
      ∧ roundBinary64 (2 ^ (-60 : ℤ)) = 2 ^ (-60 : ℤ)
      ∧ ((⟨2 ^ (-60 : ℤ)⟩ : Binary64) - 1.0).val = -1
      ∧ (0 : ℚ) ∈ (lanczosDenoms ((⟨2 ^ (-60 : ℤ)⟩ : Binary64) - 1.0) 1 []).map Binary64.val
      ∧ ¬ ∀ d ∈ (lanczosDenoms ((⟨2 ^ (-60 : ℤ)⟩ : Binary64) - 1.0) 1 []).map Binary64.val, 0 < d := by
  have hx := binary64_shift_small.2
  have h0 : (0 : ℚ) ∈ (lanczosDenoms ((⟨2 ^ (-60 : ℤ)⟩ : Binary64) - 1.0) 1 []).map Binary64.val := by
    rw [lanczosDenoms_binary64, hx]
    have e : roundBinary64 (-1 + 1) = 0 := by
      rw [roundBinary64, if_pos (by norm_num)]
    rw [e]
    exact List.mem_cons_self _ _
  refine ⟨by positivity, binary64_shift_small.1, hx, h0, ?_⟩
  intro h
  exact lt_irrefl _ (h 0 h0)

/-- C16, amended: for every `y` whose shifted argument `x = y - 1`, as `lgamma` computes
it, is greater than `-1`, every denominator `x + k` of the loop is positive, `(x + 7.5)/e`
is positive and the Lanczos sum `Ag` is positive, so `lgamma(y)` takes both logarithms of
positive numbers and divides by no zero; the denominators are positive in double precision
as well. -/
theorem lgamma_well_defined (y : ℝ) (hx : -1 < y - 1) :
    (∀ d ∈ lanczosDenoms (y - 1) 1 [], 0 < d)
      ∧ 0 < (y - 1 + 7.5) / (LogExp.M_E : ℝ)
      ∧ lanczosLoop (y - 1) 1 (lanczos_7_c 0)
          = lanczos_7_c 0
            + ∑ k ∈ Finset.Icc (1 : Fin 9) 8, lanczos_7_c k / (y - 1 + ((k : ℕ) : ℝ))
      ∧ 0 < lanczosLoop (y - 1) 1 (lanczos_7_c 0)
      ∧ lgamma y = (y - 1 + 0.5) * Real.log ((y - 1 + 7.5) / Real.exp 1)
          + (LogRootTwoPi_ + Real.log (lanczosLoop (y - 1) 1 (lanczos_7_c 0)) - 7)
      ∧ ∀ yb : Binary64, -1 < (yb - 1.0).val →
          ∀ d ∈ (lanczosDenoms (yb - 1.0) 1 []).map Binary64.val, 0 < d := by
  refine ⟨lanczosDenoms_pos _ hx, ?_, lanczosLoop_real _, lanczosLoop_pos_of_neg_one_lt _ hx,
    lgamma_unfold y, ?_⟩
  · rw [M_E_real]
    have h : (0 : ℝ) < y - 1 + 7.5 := by
      norm_num
      linarith
    exact div_pos h (Real.exp_pos 1)
  · intro yb hb d hd
    rw [lanczosDenoms_binary64] at hd
    simp only [List.mem_cons, List.mem_singleton, List.not_mem_nil, or_false] at hd
    rcases hd with h | h | h | h | h | h | h | h <;> rw [h] <;>
      exact roundBinary64_pos _ (by linarith)

/-- Witness of `lgamma_well_defined` at `y = 1/2`. -/
theorem lgamma_well_defined_witness :
    (-1 : ℝ) < 1 / 2 - 1 ∧ 0 < lanczosLoop ((1 / 2 : ℝ) - 1) 1 (lanczos_7_c 0) :=
  ⟨by norm_num, (lgamma_well_defined (1 / 2) (by norm_num)).2.2.2.1⟩

/-- C17: for every `x > 0` and every shape and scale,
`dlgamma(log(x), shape, scale, 1) = dgamma(x, shape, scale, 1) + log(x)`, and on the linear
scale `dlgamma(log(x), shape, scale, 0) = x * dgamma(x, shape, scale, 0)`. -/
theorem dlgamma_eq_dgamma_add_log (x shape scale : ℝ) (hx : 0 < x) :
    dlgamma (Real.log x) shape scale 1 = dgamma x shape scale 1 + Real.log x
      ∧ dlgamma (Real.log x) shape scale 0 = x * dgamma x shape scale 0 := by
  have h1 : (1.0 : ℝ) = 1 := by norm_num
  have e : -lgamma shape - shape * Real.log scale - x / scale + shape * Real.log x
      = -lgamma shape + (shape - 1) * Real.log x - x / scale - shape * Real.log scale
        + Real.log x := by ring
  constructor
  · simp only [dlgamma, dgamma, log_real, exp_real, Real.exp_log hx, h1]
    simp only [ne_eq, one_ne_zero, not_false_eq_true, if_true]
    exact e
  · simp only [dlgamma, dgamma, log_real, exp_real, Real.exp_log hx, h1]
    simp only [ne_eq, not_true_eq_false, if_false]
    rw [e, Real.exp_add, Real.exp_log hx]
    ring

/-- Witness of `dlgamma_eq_dgamma_add_log` at `x = 2`, `shape = 3`, `scale = 5`. -/
theorem dlgamma_eq_dgamma_add_log_witness :
    (0 : ℝ) < 2 ∧ dlgamma (Real.log 2) 3 5 1 = dgamma 2 3 5 1 + Real.log 2 :=
  ⟨by norm_num, (dlgamma_eq_dgamma_add_log 2 3 5 (by norm_num)).1⟩

/-- C18: for every `y > 0`, `scale > 0` and every shape,
`dgamma(y, shape, scale, 1) = dgamma(y/scale, shape, 1, 1) - log(scale)`. -/
theorem dgamma_scale_family (y shape scale : ℝ) (hy : 0 < y) (hs : 0 < scale) :
    dgamma y shape scale 1 = dgamma (y / scale) shape 1 1 - Real.log scale := by
  have h1 : (1.0 : ℝ) = 1 := by norm_num
  simp only [dgamma, log_real, h1]
  simp only [ne_eq, one_ne_zero, not_false_eq_true, if_true]
  rw [Real.log_div hy.ne' hs.ne', Real.log_one]
  ring

/-- Witness of `dgamma_scale_family` at `y = 2`, `shape = 3`, `scale = 5`. -/
theorem dgamma_scale_family_witness :
    (0 : ℝ) < 2 ∧ (0 : ℝ) < 5 ∧ dgamma (2 : ℝ) 3 5 1 = dgamma (2 / 5) 3 1 1 - Real.log 5 :=
  ⟨by norm_num, by norm_num, dgamma_scale_family 2 3 5 (by norm_num) (by norm_num)⟩

/-- C19: for every `y`, every shape and every `scale > 0`,
`dlgamma(y, shape, scale, 1) = dlgamma(y - log(scale), shape, 1, 1)`. -/
theorem dlgamma_location_family (y shape scale : ℝ) (hs : 0 < scale) :
    dlgamma y shape scale 1 = dlgamma (y - Real.log scale) shape 1 1 := by
  simp only [dlgamma, log_real, exp_real]
  simp only [ne_eq, one_ne_zero, not_false_eq_true, if_true]
  rw [Real.exp_sub, Real.exp_log hs, Real.log_one]
  ring

/-- Witness of `dlgamma_location_family` at `y = 2`, `shape = 3`, `scale = 5`. -/
theorem dlgamma_location_family_witness :
    (0 : ℝ) < 5 ∧ dlgamma (2 : ℝ) 3 5 1 = dlgamma (2 - Real.log 5) 3 1 1 :=
  ⟨by norm_num, dlgamma_location_family 2 3 5 (by norm_num)⟩

end TMB
